import Mathlib

/-!
Verification of the ingestion and correlation engine of the
oh-my-opencode-dashboard repository, as a shallow embedding in Lean 4.

Conventions used throughout the embedding:
* JavaScript runtime values that the source inspects dynamically are
  modelled by the inductive type JsVal; finite numbers are modelled as
  exact integers (the artifact data model declares all counters and
  timestamps to be integers), with separate constructors for NaN and
  the infinities so that the Number.isFinite checks of the source are
  represented faithfully.
* Filesystem reads are modelled by pure data: a directory is an optional
  list of file entries (none models a missing directory or a throwing
  readdir), a file entry carries its name, an optional mtime (none models
  a throwing stat) and an optional parse result (none models unreadable
  content, malformed JSON, or a falsy parse result).
* JavaScript Array.prototype.sort with a consistent comparator is the
  stable sort by the comparator; it is modelled by List.insertionSort
  with the relation "comparator result is non-positive", which is the
  stable sort in Mathlib.
* String.prototype.localeCompare is modelled by lexicographic string
  order, adequate for the ASCII identifiers the engine compares.
-/

namespace OmoDash

/-- A dynamically-typed JavaScript value as far as the engine inspects one:
a string, a finite number (exact integer model), NaN, an infinity, a
boolean, null, or undefined. Object-valued fields are modelled separately
by structure types. -/
inductive JsVal where
  | str : String → JsVal
  | num : Int → JsVal
  | nan : JsVal
  | inf : JsVal
  | bool : Bool → JsVal
  | null : JsVal
  | undef : JsVal
deriving DecidableEq, Repr

/-- A JavaScript whitespace character, as String.prototype.trim removes
them (the common ASCII subset; the artifact identifiers are ASCII). -/
def isJsSpace (c : Char) : Bool :=
  c = ' ' || c = '\t' || c = '\n' || c = '\r' || c = '\x0b' || c = '\x0c'

/-- Model of String.prototype.trim: strip JavaScript whitespace from both
ends (implemented over the character list so that proofs can evaluate
it). -/
def jsTrim (s : String) : String :=
  ⟨((s.data.dropWhile isJsSpace).reverse.dropWhile isJsSpace).reverse⟩

/-- Model of String.prototype.endsWith for a literal suffix. -/
def jsEndsWith (s suffix : String) : Bool :=
  suffix.data.isSuffixOf s.data

/-- Model of String.prototype.slice(0, n): the first n characters. -/
def jsTake (s : String) (n : Nat) : String :=
  ⟨s.data.take n⟩

/-- Lexicographic less-or-equal on character lists by code point. -/
def strLeb : List Char → List Char → Bool
  | [], _ => true
  | _ :: _, [] => false
  | a :: as, b :: bs =>
    if a.toNat < b.toNat then true
    else if b.toNat < a.toNat then false
    else strLeb as bs

/-- Model of the ordering induced by String.prototype.localeCompare (and
of the default Array.prototype.sort string order): lexicographic
comparison by code point, adequate for the ASCII identifiers the engine
compares. localeLe a b holds when a sorts at or before b. -/
def localeLe (a b : String) : Bool :=
  strLeb a.data b.data

/-- From src/src/ingest/token-usage-core.ts readString: a string value is
trimmed and returned when non-empty, every other value yields null. -/
def readString : JsVal → Option String
  | .str s => if jsTrim s = "" then none else some (jsTrim s)
  | _ => none

/-- From src/src/ingest/token-usage-core.ts clampToken: a finite
non-negative number passes through, everything else clamps to zero. -/
def clampToken : JsVal → Nat
  | .num n => if 0 ≤ n then n.toNat else 0
  | _ => 0

/-- The cache sub-record of a message's tokens field. -/
structure CacheRec where
  read : JsVal
  write : JsVal
deriving DecidableEq, Repr

/-- The tokens field of a message meta. The total field is carried because
the producer may embed one; the aggregator in token-usage-core.ts never
reads it. A missing or non-record tokens field is modelled as none at the
use site. -/
structure TokensRec where
  input : JsVal
  output : JsVal
  reasoning : JsVal
  total : JsVal
  cache : Option CacheRec
deriving DecidableEq, Repr

/-- A parsed message meta JSON record. created models time.created when it
is a number and is none otherwise; tokens is none when the tokens field is
missing or not a record (isRecord check in the source). -/
structure MsgJson where
  id : JsVal
  role : JsVal
  providerID : JsVal
  modelID : JsVal
  tokens : Option TokensRec
  created : Option Int
deriving DecidableEq, Repr

/-- An arbitrary parsed JSON value fed to aggregateTokenUsage (its unknown
input type): either a record (message-meta shaped) or a non-record value,
which the aggregator skips via its isRecord check. -/
inductive MetaVal where
  | prim : MetaVal
  | record : MsgJson → MetaVal
deriving DecidableEq, Repr

/-- Modelled from the spec: ingest/model.ts (extractModelString) is not in
the source tree. Per the spec the model string is the providerId/modelId
pair formatted "provider/model" when both are present, and absent
otherwise (the aggregator then defaults to "unknown/unknown"). -/
def extractModelString (m : MsgJson) : Option String :=
  match readString m.providerID, readString m.modelID with
  | some p, some md => some (p ++ "/" ++ md)
  | _, _ => none

/-- From token-usage-core.ts: one per-model aggregation row. -/
structure TokenUsageRow where
  model : String
  input : Nat
  output : Nat
  reasoning : Nat
  cacheRead : Nat
  cacheWrite : Nat
  total : Nat
deriving DecidableEq, Repr

/-- From token-usage-core.ts: the totals record. -/
@[ext] structure TokenUsageTotals where
  input : Nat
  output : Nat
  reasoning : Nat
  cacheRead : Nat
  cacheWrite : Nat
  total : Nat
deriving DecidableEq, Repr

/-- From token-usage-core.ts: the aggregation payload. -/
structure TokenUsagePayload where
  rows : List TokenUsageRow
  totals : TokenUsageTotals
deriving DecidableEq, Repr

def zeroTotals : TokenUsageTotals := ⟨0, 0, 0, 0, 0, 0⟩

def addTotals (a b : TokenUsageTotals) : TokenUsageTotals :=
  ⟨a.input + b.input, a.output + b.output, a.reasoning + b.reasoning,
    a.cacheRead + b.cacheRead, a.cacheWrite + b.cacheWrite, a.total + b.total⟩

instance : Zero TokenUsageTotals := ⟨zeroTotals⟩

instance : Add TokenUsageTotals := ⟨addTotals⟩

instance : AddCommMonoid TokenUsageTotals where
  add_assoc a b c := by
    show addTotals (addTotals a b) c = addTotals a (addTotals b c)
    simp [addTotals, Nat.add_assoc]
  zero_add a := by
    show addTotals zeroTotals a = a
    simp [addTotals, zeroTotals]
  add_zero a := by
    show addTotals a zeroTotals = a
    simp [addTotals, zeroTotals]
  add_comm a b := by
    show addTotals a b = addTotals b a
    simp [addTotals, Nat.add_comm]
  nsmul := nsmulRec

/-- The clamped per-message contribution of one message meta: the five
clamped counters and their sum, as computed inside the aggregation loop of
token-usage-core.ts (lines 70-77). -/
def contribOf (m : MsgJson) : TokenUsageTotals :=
  let input := clampToken ((m.tokens.map TokensRec.input).getD .undef)
  let output := clampToken ((m.tokens.map TokensRec.output).getD .undef)
  let reasoning := clampToken ((m.tokens.map TokensRec.reasoning).getD .undef)
  let cacheRead := clampToken (((m.tokens.bind TokensRec.cache).map CacheRec.read).getD .undef)
  let cacheWrite := clampToken (((m.tokens.bind TokensRec.cache).map CacheRec.write).getD .undef)
  ⟨input, output, reasoning, cacheRead, cacheWrite,
    input + output + reasoning + cacheRead + cacheWrite⟩

/-- The model key of a message: extractModelString with the source's
"unknown/unknown" default. -/
def modelKey (m : MsgJson) : String :=
  (extractModelString m).getD "unknown/unknown"

/-- Add a contribution to the row of the given model, preserving Map
insertion order: an existing row is updated in place, a new model is
appended at the end (JavaScript Map semantics in token-usage-core.ts). -/
def addToRows : List TokenUsageRow → String → TokenUsageTotals → List TokenUsageRow
  | [], model, c => [⟨model, c.input, c.output, c.reasoning, c.cacheRead, c.cacheWrite, c.total⟩]
  | r :: rest, model, c =>
    if r.model = model then
      ⟨r.model, r.input + c.input, r.output + c.output, r.reasoning + c.reasoning,
        r.cacheRead + c.cacheRead, r.cacheWrite + c.cacheWrite, r.total + c.total⟩ :: rest
    else r :: addToRows rest model c

/-- Aggregation loop state: the insertion-ordered per-model rows plus the
set of message ids already seen (dedup set). -/
structure AggState where
  rows : List TokenUsageRow
  seen : List String
deriving DecidableEq, Repr

/-- One step of the aggregation loop of token-usage-core.ts (lines 58-87):
skip non-records, skip non-assistant roles, dedup by trimmed non-empty id
(only a valid id enters the seen set), then accumulate the clamped
contribution into the per-model row. -/
def aggStep (s : AggState) (m : MetaVal) : AggState :=
  match m with
  | .prim => s
  | .record j =>
    if readString j.role = some "assistant" then
      match readString j.id with
      | some id =>
        if id ∈ s.seen then s
        else ⟨addToRows s.rows (modelKey j) (contribOf j), id :: s.seen⟩
      | none => ⟨addToRows s.rows (modelKey j) (contribOf j), s.seen⟩
    else s

/-- The row sort order of token-usage-core.ts lines 89-92: comparator
(a, b) => b.total - a.total, ties by a.model.localeCompare(b.model); the
relation holds when the comparator is non-positive. -/
def rowRel (a b : TokenUsageRow) : Prop :=
  b.total < a.total ∨ (b.total = a.total ∧ localeLe a.model b.model = true)

instance : DecidableRel rowRel := fun a b => by
  unfold rowRel; infer_instance

/-- The totals reduce of token-usage-core.ts lines 93-103: a left fold over
the sorted rows starting from the zero totals record. -/
def sumRows (rows : List TokenUsageRow) : TokenUsageTotals :=
  rows.foldl
    (fun acc r =>
      ⟨acc.input + r.input, acc.output + r.output, acc.reasoning + r.reasoning,
        acc.cacheRead + r.cacheRead, acc.cacheWrite + r.cacheWrite, acc.total + r.total⟩)
    zeroTotals

/-- From src/src/ingest/token-usage-core.ts aggregateTokenUsage. -/
def aggregateTokenUsage (metas : List MetaVal) : TokenUsagePayload :=
  let s := metas.foldl aggStep ⟨[], []⟩
  let rows := List.insertionSort rowRel s.rows
  ⟨rows, sumRows rows⟩

/-- The six-column projection of a row, for stating column-wise sums. -/
def rowTotals (r : TokenUsageRow) : TokenUsageTotals :=
  ⟨r.input, r.output, r.reasoning, r.cacheRead, r.cacheWrite, r.total⟩

/-- Column-wise sum of a list of rows. -/
def colSums (rows : List TokenUsageRow) : TokenUsageTotals :=
  (rows.map rowTotals).sum

/-- Specification-side second implementation of the aggregation's message
selection: walk the input, keep records with assistant role, and suppress
a meta exactly when its trimmed non-empty id was already seen; returns the
kept metas together with the final seen set. -/
def processedAux (seen : List String) : List MetaVal → List MsgJson × List String
  | [] => ([], seen)
  | .prim :: rest => processedAux seen rest
  | .record j :: rest =>
    if readString j.role = some "assistant" then
      match readString j.id with
      | some id =>
        if id ∈ seen then processedAux seen rest
        else
          let p := processedAux (id :: seen) rest
          (j :: p.1, p.2)
      | none =>
        let p := processedAux seen rest
        (j :: p.1, p.2)
    else processedAux seen rest

/-- The metas that survive deduplication, starting from an empty seen set. -/
def processedMetas (metas : List MetaVal) : List MsgJson :=
  (processedAux [] metas).1

/-- Independent sum of the clamped per-message contributions of the
deduplicated metas. -/
def independentSum (metas : List MetaVal) : TokenUsageTotals :=
  ((processedMetas metas).map contribOf).sum

/-!
### Session metadata and the background/task session finders

From src/unnamed/part_006 (ingest/background-tasks.ts).
-/

/-- A session meta after readAllSessionMetas validation (the id is known to
be a string). parentID and title are the string values of those fields
when present (a missing or non-string field never equals a compared
string); created models time.created when numeric. -/
structure SessionMetadata where
  id : String
  parentID : Option String
  title : Option String
  created : Option Int
deriving DecidableEq, Repr

/-- Window membership test of the finders: time.created must be a number
within [startedAt, startedAt + 60000] (an absent value fails the
comparison, as NaN comparisons do in JavaScript). -/
def sessionInWindow (m : SessionMetadata) (startedAt : Int) : Bool :=
  match m.created with
  | some t => decide (startedAt ≤ t) && decide (t ≤ startedAt + 60000)
  | none => false

/-- The candidate sort order of findBackgroundSessionId/findTaskSessionId:
comparator (a, b) => bt - at with bt, at = time.created ?? 0, ties by
a.id.localeCompare(b.id); the relation holds when the comparator is
non-positive (created descending, then id ascending). -/
def sessCandRel (a b : SessionMetadata) : Prop :=
  b.created.getD 0 < a.created.getD 0 ∨
    (b.created.getD 0 = a.created.getD 0 ∧ localeLe a.id b.id = true)

instance : DecidableRel sessCandRel := fun a b => by
  unfold sessCandRel; infer_instance

/-- The candidate filter shared by findBackgroundSessionId and
findTaskSessionId: parentID equals the main session id, title equals the
computed title, and created lies in the 60-second window. -/
def sessionCandidates (allSessionMetas : List SessionMetadata)
    (parentSessionId title : String) (startedAt : Int) : List SessionMetadata :=
  allSessionMetas.filter fun m =>
    m.parentID == some parentSessionId && m.title == some title &&
      sessionInWindow m startedAt

/-- The shared body of the two finders: filter, sort by the deterministic
comparator, return the first candidate's id (candidates[0]?.id ?? null). -/
def findSessionIdByTitle (allSessionMetas : List SessionMetadata)
    (parentSessionId title : String) (startedAt : Int) : Option String :=
  ((List.insertionSort sessCandRel
      (sessionCandidates allSessionMetas parentSessionId title startedAt)).head?).map
    SessionMetadata.id

/-- From part_006 findBackgroundSessionId: the title is
"Background: " followed by the description. -/
def findBackgroundSessionId (allSessionMetas : List SessionMetadata)
    (parentSessionId description : String) (startedAt : Int) : Option String :=
  findSessionIdByTitle allSessionMetas parentSessionId
    ("Background: " ++ description) startedAt

/-- From part_006 findTaskSessionId: the title is "Task: " followed by the
description. -/
def findTaskSessionId (allSessionMetas : List SessionMetadata)
    (parentSessionId description : String) (startedAt : Int) : Option String :=
  findSessionIdByTitle allSessionMetas parentSessionId
    ("Task: " ++ description) startedAt

/-!
### Filesystem model and the artifact readers

From src/unnamed/part_006. A directory is modelled as an optional list of
file entries; none models a missing directory (existsSync false) as well
as a throwing readdirSync, both of which the source maps to an empty
result.
-/

/-- One directory entry: the file name, the stat mtime (none models a
throwing statSync, which the source maps to 0), and the parse result
(none models unreadable content, malformed JSON, or a falsy parsed
value, all of which the source skips identically). -/
structure FileEntry (α : Type) where
  name : String
  mtime : Option Int
  parsed : Option α
deriving DecidableEq, Repr

/-- A parsed session JSON record prior to the string-id check. -/
structure SessJson where
  id : JsVal
  parentID : Option String
  title : Option String
  created : Option Int
deriving DecidableEq, Repr

/-- A parsed tool-part JSON record prior to validation. -/
structure PartStateInput where
  run_in_background : Option Bool
  description : JsVal
  subagent_type : JsVal
  category : JsVal
  resume : JsVal
deriving DecidableEq, Repr

/-- The value of part.state.input after the nullish-coalescing default:
missing models null/undefined (which becomes the empty object, whose
run_in_background is undefined, so the part is skipped), prim models a
non-object value (skipped by the typeof check), obj carries the fields the
allowlist reads. -/
inductive InputVal where
  | missing : InputVal
  | prim : InputVal
  | obj : PartStateInput → InputVal
deriving DecidableEq, Repr

/-- The state field of a part record (present and object-typed after the
readToolPartsForMessage validation). -/
structure PartState where
  input : InputVal
deriving DecidableEq, Repr

/-- A parsed part JSON record prior to validation. -/
structure PartJson where
  type : JsVal
  tool : JsVal
  callID : String
  state : Option PartState
deriving DecidableEq, Repr

/-- A part that passed the readToolPartsForMessage validation: type is
"tool", tool is a string, state is a truthy object. -/
structure StoredToolPart where
  tool : String
  callID : String
  state : PartState
deriving DecidableEq, Repr

/-- A message meta that passed the string-id check of
readRecentMessageMetas. -/
structure StoredMessageMeta where
  id : String
  created : Option Int
  providerID : JsVal
  modelID : JsVal
deriving DecidableEq, Repr

/-- A project subdirectory of the session storage root, as seen by
readAllSessionMetas (withFileTypes listing). -/
structure ProjEntry where
  name : String
  isDir : Bool
  files : List (FileEntry SessJson)
deriving DecidableEq, Repr

/-- The artifact storage accessed by the engine. Directory lookups are
keyed by the identifier the source joins into the path (session id for
message directories, message id for part directories); getMessageDir and
path.join are abstracted into this keying. -/
structure Storage where
  messageDirs : String → Option (List (FileEntry MetaVal))
  partDirs : String → Option (List (FileEntry PartJson))
  sessionProjects : Option (List ProjEntry)

/-- listJsonFiles: keep the entries whose name ends in ".json". -/
def listJsonFiles {α : Type} (files : List (FileEntry α)) : List (FileEntry α) :=
  files.filter fun f => jsEndsWith f.name ".json"

/-- The mtime key of an entry, with the throwing-stat fallback 0. -/
def mtimeKey {α : Type} (e : FileEntry α) : Int :=
  e.mtime.getD 0

/-- The mtime sort order of readRecentMessageMetas: comparator
(a, b) => b.mtime - a.mtime; the relation holds when the comparator is
non-positive (mtime descending). -/
def byMtimeDesc {α : Type} (a b : FileEntry α) : Prop :=
  mtimeKey b ≤ mtimeKey a

instance {α : Type} : DecidableRel (byMtimeDesc (α := α)) := fun a b => by
  unfold byMtimeDesc; infer_instance

/-- The name sort order of readToolPartsForMessage (Array.prototype.sort
without a comparator on the file names, which is ascending string order). -/
def byNameAsc {α : Type} (a b : FileEntry α) : Prop :=
  localeLe a.name b.name = true

instance {α : Type} : DecidableRel (byNameAsc (α := α)) := fun a b => by
  unfold byNameAsc; infer_instance

/-- The string-id validation of readRecentMessageMetas: the parsed value
must be a record whose id field is a string (not trimmed here). -/
def validMsg : MetaVal → Option StoredMessageMeta
  | .prim => none
  | .record j =>
    match j.id with
    | .str s => some ⟨s, j.created, j.providerID, j.modelID⟩
    | _ => none

/-- From part_006 readRecentMessageMetas: empty for a missing directory,
otherwise list the .json files, sort by mtime descending, truncate to
maxMessages, and keep the entries that parse to a record with a string
id. -/
def readRecentMessageMetas (dir : Option (List (FileEntry MetaVal)))
    (maxMessages : Nat) : List StoredMessageMeta :=
  match dir with
  | none => []
  | some files =>
    let sorted := List.insertionSort byMtimeDesc (listJsonFiles files)
    let recent := sorted.take maxMessages
    recent.filterMap fun e => e.parsed.bind validMsg

/-- The sorted-and-truncated file list used by readRecentMessageMetas,
named so the ordering can be stated. -/
def recentFiles (dir : Option (List (FileEntry MetaVal)))
    (maxMessages : Nat) : List (FileEntry MetaVal) :=
  match dir with
  | none => []
  | some files => (List.insertionSort byMtimeDesc (listJsonFiles files)).take maxMessages

/-- The part validation of readToolPartsForMessage: type is "tool", tool is
a string, state is a truthy object. -/
def validPart (p : PartJson) : Option StoredToolPart :=
  if p.type = .str "tool" then
    match p.tool with
    | .str t => p.state.map fun st => ⟨t, p.callID, st⟩
    | _ => none
  else none

/-- From part_006 readToolPartsForMessage: empty for a missing part
directory, otherwise the .json files sorted by name, parsed and
validated. -/
def readToolPartsForMessage (storage : Storage) (messageID : String) :
    List StoredToolPart :=
  match storage.partDirs messageID with
  | none => []
  | some files =>
    let sorted := List.insertionSort byNameAsc (listJsonFiles files)
    sorted.filterMap fun e => e.parsed.bind validPart

/-- The string-id validation of readAllSessionMetas. -/
def validSess (j : SessJson) : Option SessionMetadata :=
  match j.id with
  | .str s => some ⟨s, j.parentID, j.title, j.created⟩
  | _ => none

/-- From part_006 readAllSessionMetas: empty for a missing session root,
otherwise every .json file of every project subdirectory, parsed and
validated, in listing order. -/
def readAllSessionMetas (storage : Storage) : List SessionMetadata :=
  match storage.sessionProjects with
  | none => []
  | some projs =>
    (projs.filter ProjEntry.isDir).flatMap fun p =>
      (listJsonFiles p.files).filterMap fun e => e.parsed.bind validSess

/-!
### Background-session statistics, timeline formatting, and the
background-task derivation

From src/unnamed/part_006 (ingest/background-tasks.ts).
-/

/-- clampString from part_006: a string value is trimmed; an empty result
is null; a long result is sliced to maxLen characters. -/
def clampString (v : JsVal) (maxLen : Nat) : Option String :=
  match v with
  | .str s =>
    let t := jsTrim s
    if t = "" then none
    else if t.length ≤ maxLen then some t
    else some (jsTake t maxLen)
  | _ => none

/-- The replay statistics of a linked session. -/
structure SessionStats where
  toolCalls : Nat
  lastTool : Option String
  lastUpdateAt : Option Int
deriving DecidableEq, Repr

/-- The replay order of deriveBackgroundSessionStats: comparator
(a, b) => at - bt (created ascending), ties by a.id.localeCompare(b.id). -/
def statsOrderRel (a b : StoredMessageMeta) : Prop :=
  a.created.getD 0 < b.created.getD 0 ∨
    (a.created.getD 0 = b.created.getD 0 ∧ localeLe a.id b.id = true)

instance : DecidableRel statsOrderRel := fun a b => by
  unfold statsOrderRel; infer_instance

/-- From part_006 deriveBackgroundSessionStats: replay the session's
messages oldest-first, remember the latest numeric created as
lastUpdateAt, count tool parts, and remember the last tool name. -/
def deriveBackgroundSessionStats (storage : Storage)
    (metas : List StoredMessageMeta) : SessionStats :=
  (List.insertionSort statsOrderRel metas).foldl
    (fun acc meta =>
      let lastUpdateAt := match meta.created with
        | some c => some c
        | none => acc.lastUpdateAt
      let parts := readToolPartsForMessage storage meta.id
      let lastTool := match parts.getLast? with
        | some p => some p.tool
        | none => acc.lastTool
      ⟨acc.toolCalls + parts.length, lastTool, lastUpdateAt⟩)
    ⟨0, none, none⟩

/-- The statistics of a linked session as deriveBackgroundTasks computes
them: replay of the session's recent (≤ 200) messages. -/
def statsFor (storage : Storage) (sessionId : String) : SessionStats :=
  deriveBackgroundSessionStats storage
    (readRecentMessageMetas (storage.messageDirs sessionId) 200)

/-- Modelled from the spec: ingest/model.ts (pickLatestModelString) is not
in the source tree. Per the spec the latest model is the most recent
(created descending) message's providerId/modelId pair formatted
"provider/model". -/
def pickLatestModelString (metas : List StoredMessageMeta) : Option String :=
  (List.insertionSort (fun a b => statsOrderRel b a) metas).findSome? fun m =>
    match readString m.providerID, readString m.modelID with
    | some p, some md => some (p ++ "/" ++ md)
    | _, _ => none

/-- Zero-pad a natural number to two digits. -/
def pad2 (n : Nat) : String :=
  if n < 10 then "0" ++ toString n else toString n

/-- Zero-pad a year to four digits (negative years are printed as-is; the
engine only formats epoch-era timestamps). -/
def pad4 (n : Int) : String :=
  if 0 ≤ n ∧ n < 10 then "000" ++ toString n
  else if 0 ≤ n ∧ n < 100 then "00" ++ toString n
  else if 0 ≤ n ∧ n < 1000 then "0" ++ toString n
  else toString n

/-- Model of Date.prototype.toISOString with the fractional seconds
stripped, as in part_006 formatIsoNoMs: proleptic Gregorian civil-date
conversion of the epoch-millisecond timestamp. -/
def formatIsoNoMs (ts : Int) : String :=
  let secs := ts.fdiv 1000
  let days := secs.fdiv 86400
  let rem := (secs - days * 86400).toNat
  let z := days + 719468
  let era := z.fdiv 146097
  let doe := (z - era * 146097).toNat
  let yoe := (doe - doe / 1460 + doe / 36524 - doe / 146096) / 365
  let doy := doe - (365 * yoe + yoe / 4 - yoe / 100)
  let mp := (5 * doy + 2) / 153
  let d := doy - (153 * mp + 2) / 5 + 1
  let m := if mp < 10 then mp + 3 else mp - 9
  let year := (yoe : Int) + era * 400 + (if m ≤ 2 then 1 else 0)
  pad4 year ++ "-" ++ pad2 m ++ "-" ++ pad2 d ++ "T" ++
    pad2 (rem / 3600) ++ ":" ++ pad2 (rem % 3600 / 60) ++ ":" ++ pad2 (rem % 60) ++ "Z"

/-- From part_006 formatElapsed: render a duration in the coarsest unit
pair that fits. -/
def formatElapsed (ms : Int) : String :=
  let totalSeconds := (max 0 (ms.fdiv 1000)).toNat
  let seconds := totalSeconds % 60
  let totalMinutes := totalSeconds / 60
  let minutes := totalMinutes % 60
  let totalHours := totalMinutes / 60
  let hours := totalHours % 24
  let days := totalHours / 24
  if 0 < days then
    if 0 < hours then toString days ++ "d" ++ toString hours ++ "h" else toString days ++ "d"
  else if 0 < totalHours then
    if 0 < minutes then toString totalHours ++ "h" ++ toString minutes ++ "m"
    else toString totalHours ++ "h"
  else if 0 < totalMinutes then
    if 0 < seconds then toString totalMinutes ++ "m" ++ toString seconds ++ "s"
    else toString totalMinutes ++ "m"
  else toString seconds ++ "s"

/-- From part_006 formatTimeline: empty when the start is not a number,
otherwise the ISO start followed by ": " and the elapsed rendering. -/
def formatTimeline (startAt : Option Int) (endAtMs : Int) : String :=
  match startAt with
  | none => ""
  | some s => formatIsoNoMs s ++ ": " ++ formatElapsed (endAtMs - s)

/-- The status of a background-task row. -/
inductive TaskStatus where
  | queued : TaskStatus
  | running : TaskStatus
  | completed : TaskStatus
  | error : TaskStatus
  | unknown : TaskStatus
deriving DecidableEq, Repr

/-- From part_006 lines 327-335: the status chain. The truthiness test on
stats.lastUpdateAt makes both null and 0 fail the running branch. -/
def statusOf (sessionId : Option String) (stats : SessionStats) (nowMs : Int) :
    TaskStatus :=
  match sessionId with
  | none => .queued
  | some _ =>
    match stats.lastUpdateAt with
    | some lu =>
      if lu ≠ 0 ∧ nowMs - lu ≤ 15000 then .running
      else if 0 < stats.toolCalls then .completed
      else .unknown
    | none =>
      if 0 < stats.toolCalls then .completed
      else .unknown

/-- One derived background-task row (part_006 BackgroundTaskRow). -/
structure BackgroundTaskRow where
  id : String
  description : String
  agent : String
  status : TaskStatus
  toolCalls : Option Nat
  lastTool : Option String
  lastModel : Option String
  timeline : String
  sessionId : Option String
deriving DecidableEq, Repr

/-- The resume acceptance test of the synchronous branch: the trimmed
resume id must name a message directory that exists and is non-empty. -/
def resumeSessionId (storage : Storage) (resume : JsVal) : Option String :=
  match resume with
  | .str r =>
    if jsTrim r = "" then none
    else
      match storage.messageDirs (jsTrim r) with
      | some files => if files.isEmpty then none else some (jsTrim r)
      | none => none
  | _ => none

/-- The per-part body of the deriveBackgroundTasks inner loop (part_006
lines 266-349): the chain of continue-guards followed by correlation,
statistics, status and timeline; none models a continue. -/
def delegateRow (storage : Storage) (allSessionMetas : List SessionMetadata)
    (mainSessionId : String) (nowMs startedAt : Int) (part : StoredToolPart) :
    Option BackgroundTaskRow :=
  if part.tool ≠ "delegate_task" then none
  else
    match part.state.input with
    | .prim => none
    | .missing => none
    | .obj inp =>
      match inp.run_in_background with
      | none => none
      | some rib =>
        match clampString inp.description 120 with
        | none => none
        | some description =>
          let subagentType := clampString inp.subagent_type 30
          let category := clampString inp.category 30
          let agent := subagentType.getD
            (match category with
             | some c => "sisyphus-junior (" ++ c ++ ")"
             | none => "unknown")
          let backgroundSessionId :=
            if rib then
              findBackgroundSessionId allSessionMetas mainSessionId description startedAt
            else
              match resumeSessionId storage inp.resume with
              | some sid => some sid
              | none =>
                match findBackgroundSessionId allSessionMetas mainSessionId description startedAt with
                | some sid => some sid
                | none => findTaskSessionId allSessionMetas mainSessionId description startedAt
          let stats := match backgroundSessionId with
            | some sid => statsFor storage sid
            | none => ⟨0, none, some startedAt⟩
          let lastModel := match backgroundSessionId with
            | some sid =>
              pickLatestModelString (readRecentMessageMetas (storage.messageDirs sid) 200)
            | none => none
          let status := statusOf backgroundSessionId stats nowMs
          let timelineEndMs := if status = .completed then stats.lastUpdateAt.getD nowMs else nowMs
          some
            { id := part.callID
              description := description
              agent := agent
              status := status
              toolCalls := match backgroundSessionId with
                | some _ => some stats.toolCalls
                | none => none
              lastTool := stats.lastTool
              lastModel := lastModel
              timeline := if status = .unknown then "" else formatTimeline (some startedAt) timelineEndMs
              sessionId := backgroundSessionId }

/-- The newest-first order of the deriveBackgroundTasks outer scan:
comparator (a, b) => (b.created ?? 0) - (a.created ?? 0). -/
def newestFirstRel (a b : StoredMessageMeta) : Prop :=
  b.created.getD 0 ≤ a.created.getD 0

instance : DecidableRel newestFirstRel := fun a b => by
  unfold newestFirstRel; infer_instance

/-- The outer message loop of deriveBackgroundTasks: a message without a
numeric created is skipped; otherwise its parts contribute rows, and the
loop stops at the end of the first message after which at least 50 rows
exist. -/
def btLoop (storage : Storage) (allSessionMetas : List SessionMetadata)
    (mainSessionId : String) (nowMs : Int) (rows : List BackgroundTaskRow) :
    List StoredMessageMeta → List BackgroundTaskRow
  | [] => rows
  | meta :: rest =>
    match meta.created with
    | none => btLoop storage allSessionMetas mainSessionId nowMs rows rest
    | some startedAt =>
      let parts := readToolPartsForMessage storage meta.id
      let rows' := rows ++ parts.filterMap
        (delegateRow storage allSessionMetas mainSessionId nowMs startedAt)
      if 50 ≤ rows'.length then rows'
      else btLoop storage allSessionMetas mainSessionId nowMs rows' rest

/-- From part_006 deriveBackgroundTasks: read the main session's recent
messages, read all session metas, scan newest-first, and emit the
delegation rows. The per-session memoization caches of the source are
semantically transparent (all reads are pure here) and are therefore not
modelled. -/
def deriveBackgroundTasks (storage : Storage) (mainSessionId : String)
    (nowMs : Int) : List BackgroundTaskRow :=
  let metas := readRecentMessageMetas (storage.messageDirs mainSessionId) 200
  let allSessionMetas := readAllSessionMetas storage
  let ordered := List.insertionSort newestFirstRel metas
  btLoop storage allSessionMetas mainSessionId nowMs [] ordered

/-- The running condition of the status chain, as a proposition on the
linked session's statistics: the last update timestamp is present and
truthy (non-zero) and at most 15 seconds before now (a later timestamp
also passes, since only the signed difference is bounded). -/
def runningCond (stats : SessionStats) (nowMs : Int) : Prop :=
  match stats.lastUpdateAt with
  | some lu => lu ≠ 0 ∧ nowMs - lu ≤ 15000
  | none => False

instance (stats : SessionStats) (nowMs : Int) : Decidable (runningCond stats nowMs) := by
  unfold runningCond
  cases stats.lastUpdateAt <;> infer_instance

/-!
### Token-usage derivation over the storage

From src/unnamed/part_008 (ingest/token-usage.ts).
-/

/-- From part_008 normalizeSessionId: a string is trimmed and kept when
non-empty. -/
def normalizeSessionId (v : Option String) : Option String :=
  match v with
  | some s => if jsTrim s = "" then none else some (jsTrim s)
  | none => none

/-- The id-collection push of deriveTokenUsage: normalize, drop blanks,
keep first occurrences in order. -/
def pushSessionId (acc : List String) (v : Option String) : List String :=
  match normalizeSessionId v with
  | none => acc
  | some id => if id ∈ acc then acc else acc ++ [id]

/-- From part_008 readSessionMetas: every parsed truthy value of the
session's message directory, with no shape validation (the aggregator
validates). -/
def readSessionMetas (dir : Option (List (FileEntry MetaVal))) : List MetaVal :=
  match dir with
  | none => []
  | some files => (listJsonFiles files).filterMap FileEntry.parsed

/-- From part_008 deriveTokenUsage: deduplicate the session ids
(main first, then the background-linked ids), concatenate their message
metas, and aggregate. -/
def deriveTokenUsage (storage : Storage) (mainSessionId : Option String)
    (backgroundSessionIds : List (Option String)) : TokenUsagePayload :=
  let sessionIds := (mainSessionId :: backgroundSessionIds).foldl pushSessionId []
  let metas := sessionIds.flatMap fun sid => readSessionMetas (storage.messageDirs sid)
  aggregateTokenUsage metas

/-!
### Time-series normalization

From src/unnamed/part_004 (the App normalizeTimeSeries). Math.floor is the
identity on the exact-integer number model.
-/

/-- From part_004 toFiniteNumber: a finite number passes, everything else
is null. -/
def toFiniteNumber : JsVal → Option Int
  | .num n => some n
  | _ => none

/-- From part_004 toNonNegativeCount: coerce to a number, clamp non-finite
values to 0, floor, and clamp below at 0. The Number() coercion is
modelled for numbers, booleans and null; numeric strings (which JavaScript
would parse) are modelled as non-numeric and coerce to 0. -/
def toNonNegativeCount : JsVal → Nat
  | .num n => if 0 ≤ n then n.toNat else 0
  | .bool true => 1
  | _ => 0

/-- One entry of the incoming series array. A non-object entry, and an
object entry whose id and key are both not strings, are skipped
identically; both are modelled by id none. -/
structure TsSeriesInput where
  id : Option String
  values : Option (List JsVal)
deriving DecidableEq, Repr

/-- The incoming time-series record. Each numeric field models the
nullish-coalesced pair of its camelCase and snake_case spellings; series
is none when the field is not an array. -/
structure TsInputRec where
  windowMs : JsVal
  buckets : JsVal
  bucketMs : JsVal
  serverNowMs : JsVal
  anchorMs : JsVal
  series : Option (List TsSeriesInput)
deriving DecidableEq, Repr

/-- The input of normalizeTimeSeries: a falsy or non-object value, or a
record. -/
inductive TsInput where
  | notObject : TsInput
  | obj : TsInputRec → TsInput
deriving DecidableEq, Repr

/-- One normalized output series. -/
structure TsSeriesOut where
  id : String
  label : String
  tone : String
  values : List Nat
deriving DecidableEq, Repr

/-- The normalized time-series structure (also the shape of the server
time-series payload consumed by the dashboard payload). -/
structure TimeSeriesOut where
  windowMs : Int
  buckets : Int
  bucketMs : Int
  anchorMs : Int
  serverNowMs : Int
  series : List TsSeriesOut
deriving DecidableEq, Repr

/-- TIME_SERIES_SERIES_DEFS of part_004: (id, label, tone). -/
def tsSeriesDefs : List (String × String × String) :=
  [("overall-main", "Overall", "muted"),
   ("agent:sisyphus", "Sisyphus", "teal"),
   ("agent:prometheus", "Prometheus", "red"),
   ("agent:atlas", "Atlas", "green"),
   ("background-total", "Background tasks (total)", "muted")]

/-- From part_004 makeZeroTimeSeries. -/
def makeZeroTimeSeries (windowMsOpt bucketsOpt bucketMsOpt anchorMsOpt serverNowMsOpt :
    Option Int) : TimeSeriesOut :=
  let windowMs := max 1 (windowMsOpt.getD 300000)
  let bucketMs := max 1 (bucketMsOpt.getD 2000)
  let derivedBuckets := windowMs.fdiv bucketMs
  let buckets := max 1 (bucketsOpt.getD (if 0 < derivedBuckets then derivedBuckets else 150))
  let serverNowMs := serverNowMsOpt.getD 0
  let anchorMs := anchorMsOpt.getD 0
  ⟨windowMs, buckets, bucketMs, anchorMs, serverNowMs,
    tsSeriesDefs.map fun d => ⟨d.1, d.2.1, d.2.2, List.replicate buckets.toNat 0⟩⟩

/-- The parsed values of the first series entry carrying the given id
(JavaScript Map first-set-wins over the series array), before trimming and
padding. -/
def seriesParsed (rec : TsInputRec) (id : String) : List Nat :=
  match rec.series with
  | none => []
  | some xs =>
    match xs.find? (fun s => s.id == some id) with
    | some s =>
      match s.values with
      | some vs => vs.map toNonNegativeCount
      | none => []
    | none => []

/-- The trim-then-pad step of normalizeTimeSeries: keep the last buckets
entries when too long, append zeros when too short. -/
def seriesValues (rec : TsInputRec) (id : String) (buckets : Nat) : List Nat :=
  let parsed := seriesParsed rec id
  let trimmed := if buckets < parsed.length then parsed.drop (parsed.length - buckets) else parsed
  if trimmed.length < buckets then trimmed ++ List.replicate (buckets - trimmed.length) 0
  else trimmed

/-- From part_004 normalizeTimeSeries. -/
def normalizeTimeSeries (input : TsInput) (nowMsFallback : Int) : TimeSeriesOut :=
  match input with
  | .notObject =>
    let bucketMs : Int := 2000
    let serverNowMs := nowMsFallback
    let anchorMs := (serverNowMs.fdiv bucketMs) * bucketMs
    makeZeroTimeSeries (some 300000) (some 150) (some bucketMs) (some anchorMs) (some serverNowMs)
  | .obj rec =>
    let windowMsRaw := toFiniteNumber rec.windowMs
    let bucketsRaw := toFiniteNumber rec.buckets
    let bucketMsRaw := toFiniteNumber rec.bucketMs
    let bucketMs := max 1 (bucketMsRaw.getD 2000)
    let bucketsFromWindow : Option Int :=
      match windowMsRaw with
      | some w => if w ≠ 0 then some (w.fdiv bucketMs) else none
      | none => none
    let buckets := max 1 ((bucketsRaw.orElse fun _ => bucketsFromWindow).getD 150)
    let windowMs := max 1 (windowMsRaw.getD (buckets * bucketMs))
    let serverNowMs := (toFiniteNumber rec.serverNowMs).getD nowMsFallback
    let anchorMs := (toFiniteNumber rec.anchorMs).getD ((serverNowMs.fdiv bucketMs) * bucketMs)
    let series := tsSeriesDefs.map fun d =>
      TsSeriesOut.mk d.1 d.2.1 d.2.2 (seriesValues rec d.1 buckets.toNat)
    ⟨windowMs, buckets, bucketMs, anchorMs, serverNowMs, series⟩

/-!
### The dashboard payload as a JSON tree

From src/src/server/api.test.ts lines 332-659 (the bundled
server/dashboard.ts). The payload is modelled as an explicit JSON tree so
that key-absence at any depth can be stated. The collaborators whose
sources are not in the tree (boulder/plan readers, the session selector,
getMainSessionView, deriveTimeSeriesActivity, deriveToolCalls) enter as
typed inputs, universally quantified in the theorems; their result types
are taken from the source's type annotations.
-/

/-- A JSON value. -/
inductive Json where
  | null : Json
  | bool : Bool → Json
  | num : Int → Json
  | str : String → Json
  | arr : List Json → Json
  | obj : List (String × Json) → Json

mutual

/-- Whether a key with the given name occurs anywhere in the JSON tree. -/
def hasKeyDeep (k : String) : Json → Bool
  | .obj fields => hasKeyFields k fields
  | .arr xs => hasKeyArr k xs
  | _ => false

/-- Key search over the fields of an object. -/
def hasKeyFields (k : String) : List (String × Json) → Bool
  | [] => false
  | (k', v) :: rest => k' == k || hasKeyDeep k v || hasKeyFields k rest

/-- Key search over the elements of an array. -/
def hasKeyArr (k : String) : List Json → Bool
  | [] => false
  | x :: rest => hasKeyDeep k x || hasKeyArr k rest

end

mutual

/-- All object keys occurring anywhere in a JSON tree. -/
def jsonKeys : Json → List String
  | .obj fields => keysFields fields
  | .arr xs => keysArr xs
  | _ => []

/-- Keys of an object's fields and their subtrees. -/
def keysFields : List (String × Json) → List String
  | [] => []
  | (k, v) :: rest => k :: (jsonKeys v ++ keysFields rest)

/-- Keys occurring in the elements of an array. -/
def keysArr : List Json → List String
  | [] => []
  | x :: rest => jsonKeys x ++ keysArr rest

end

/-- An optional string as a JSON leaf (null when absent). -/
def optStrJson : Option String → Json
  | some s => .str s
  | none => .null

/-- The result shape of getMainSessionView used by buildDashboardPayload
(source type MainSessionView; the selector itself is an external
collaborator). -/
structure MainView where
  agent : String
  currentTool : Option String
  currentModel : Option String
  lastUpdated : Option Int
  sessionLabel : String
  status : String
deriving DecidableEq, Repr

/-- The result shape of readPlanProgress. -/
structure PlanProgressView where
  total : Nat
  completed : Nat
  isComplete : Bool
  missing : Bool
deriving DecidableEq, Repr

/-- One plan step of readPlanSteps. -/
structure PlanStep where
  checked : Bool
  text : String
deriving DecidableEq, Repr

/-- The fields of the boulder state that buildDashboardPayload reads. -/
structure BoulderView where
  plan_name : Option String
  active_plan : Option String
deriving DecidableEq, Repr

/-- One entry of the deriveToolCalls result used by the main-session task
row (only the tool name is read). -/
structure ToolCallV where
  tool : String
deriving DecidableEq, Repr

/-- From dashboard.ts formatIso: "never" for a falsy timestamp, otherwise
the ISO rendering (the fractional-seconds suffix of toISOString is not
modelled; only the key structure of the payload matters). -/
def formatIso (ts : Option Int) : String :=
  match ts with
  | none => "never"
  | some t => if t = 0 then "never" else formatIsoNoMs t

/-- From dashboard.ts planStatusPill. -/
def planStatusPill (missing isComplete : Bool) : String :=
  if missing then "not started" else if isComplete then "complete" else "in progress"

/-- From dashboard.ts mainStatusPill. -/
def mainStatusPill (status : String) : String :=
  if status = "running_tool" then "running tool"
  else if status = "thinking" then "thinking"
  else if status = "busy" then "busy"
  else if status = "idle" then "idle"
  else "unknown"

/-- The serialized status of a background-task row. -/
def statusString : TaskStatus → String
  | .queued => "queued"
  | .running => "running"
  | .completed => "completed"
  | .error => "error"
  | .unknown => "unknown"

/-- The backgroundTasks row projection of buildDashboardPayload
(lines 572-582). -/
def backgroundTaskJson (t : BackgroundTaskRow) : Json :=
  .obj [("id", .str t.id),
        ("description", .str t.description),
        ("agent", .str t.agent),
        ("lastModel", optStrJson t.lastModel),
        ("status", .str (statusString t.status)),
        ("toolCalls", .num (t.toolCalls.getD 0)),
        ("lastTool", .str (t.lastTool.getD "-")),
        ("timeline", .str t.timeline),
        ("sessionId", optStrJson t.sessionId)]

/-- One plan step as JSON. -/
def planStepJson (s : PlanStep) : Json :=
  .obj [("checked", .bool s.checked), ("text", .str s.text)]

/-- One time-series series as JSON. -/
def tsSeriesJson (s : TsSeriesOut) : Json :=
  .obj [("id", .str s.id), ("label", .str s.label), ("tone", .str s.tone),
        ("values", .arr (s.values.map fun v => .num (Int.ofNat v)))]

/-- The time-series payload as JSON. -/
def timeSeriesJson (ts : TimeSeriesOut) : Json :=
  .obj [("windowMs", .num ts.windowMs),
        ("bucketMs", .num ts.bucketMs),
        ("buckets", .num ts.buckets),
        ("anchorMs", .num ts.anchorMs),
        ("serverNowMs", .num ts.serverNowMs),
        ("series", .arr (ts.series.map tsSeriesJson))]

/-- One token-usage row as JSON. Its counter fields serialize under the
keys named input and output. -/
def tokenRowJson (r : TokenUsageRow) : Json :=
  .obj [("model", .str r.model),
        ("input", .num r.input),
        ("output", .num r.output),
        ("reasoning", .num r.reasoning),
        ("cacheRead", .num r.cacheRead),
        ("cacheWrite", .num r.cacheWrite),
        ("total", .num r.total)]

/-- The token-usage totals as JSON. -/
def tokenTotalsJson (t : TokenUsageTotals) : Json :=
  .obj [("input", .num t.input),
        ("output", .num t.output),
        ("reasoning", .num t.reasoning),
        ("cacheRead", .num t.cacheRead),
        ("cacheWrite", .num t.cacheWrite),
        ("total", .num t.total)]

/-- The token-usage payload as JSON. -/
def tokenUsageJson (p : TokenUsagePayload) : Json :=
  .obj [("rows", .arr (p.rows.map tokenRowJson)), ("totals", tokenTotalsJson p.totals)]

/-- The mainSession object of the payload. -/
def mainSessionJson (main : MainView) (sessionId : Option String) : Json :=
  .obj [("agent", .str main.agent),
        ("currentModel", optStrJson main.currentModel),
        ("currentTool", .str (main.currentTool.getD "-")),
        ("lastUpdatedLabel", .str (formatIso main.lastUpdated)),
        ("session", .str main.sessionLabel),
        ("sessionId", optStrJson sessionId),
        ("statusPill", .str (mainStatusPill main.status))]

/-- The planProgress object of the payload. -/
def planProgressJson (planName planPath : String) (plan : PlanProgressView)
    (stepsMissing : Bool) (steps : List PlanStep) : Json :=
  .obj [("name", .str planName),
        ("completed", .num plan.completed),
        ("total", .num plan.total),
        ("path", .str planPath),
        ("statusPill", .str (planStatusPill plan.missing plan.isComplete)),
        ("steps", .arr (if stepsMissing then [] else steps.map planStepJson))]

/-- The main-session pseudo-task rows of buildDashboardPayload
(lines 514-546). -/
def mainSessionTasksJson (sessionId : Option String) (main : MainView)
    (sessionCreated : Option Int) (mainToolCalls : List ToolCallV) (nowMs : Int) :
    List Json :=
  match sessionId with
  | none => []
  | some sid =>
    let status :=
      if main.status = "running_tool" ∨ main.status = "thinking" ∨ main.status = "busy" then
        "running"
      else if main.status = "idle" then "idle"
      else "unknown"
    let endAtMs := if status = "running" then nowMs else main.lastUpdated.getD nowMs
    [Json.obj
      [("id", .str "main-session"),
       ("description", .str "Main session"),
       ("subline", .str sid),
       ("agent", .str main.agent),
       ("lastModel", optStrJson main.currentModel),
       ("status", .str status),
       ("toolCalls", .num mainToolCalls.length),
       ("lastTool", .str (((mainToolCalls.head?).map ToolCallV.tool).getD "-")),
       ("timeline", .str (formatTimeline sessionCreated endAtMs)),
       ("sessionId", .str sid)]]

/-- The default main view of the no-session branch (line 502). -/
def defaultMainView : MainView :=
  ⟨"unknown", none, none, none, "(no session)", "unknown"⟩

/-- The raw sub-object of the payload (lines 589-595): the payload without
its tokenUsage and raw fields. -/
def buildRawJson (storage : Storage) (nowMs : Int) (sessionId : Option String)
    (boulder : Option BoulderView) (planFromReader : PlanProgressView)
    (stepsMissingFromReader : Bool) (planStepsFromReader : List PlanStep)
    (mainFromView : MainView) (sessionCreated : Option Int)
    (mainToolCalls : List ToolCallV) (timeSeries : TimeSeriesOut) : Json :=
  let planName := (boulder.bind BoulderView.plan_name).getD "(no active plan)"
  let planPath := (boulder.bind BoulderView.active_plan).getD ""
  let plan := match boulder with
    | some _ => planFromReader
    | none => ⟨0, 0, false, true⟩
  let stepsMissing := match boulder with
    | some _ => stepsMissingFromReader
    | none => true
  let main := match sessionId with
    | some _ => mainFromView
    | none => defaultMainView
  let tasks := match sessionId with
    | some sid => deriveBackgroundTasks storage sid nowMs
    | none => []
  .obj [("mainSession", mainSessionJson main sessionId),
        ("planProgress", planProgressJson planName planPath plan stepsMissing planStepsFromReader),
        ("backgroundTasks", .arr (tasks.map backgroundTaskJson)),
        ("mainSessionTasks",
          .arr (mainSessionTasksJson sessionId main sessionCreated mainToolCalls nowMs)),
        ("timeSeries", timeSeriesJson timeSeries)]

/-- From dashboard.ts buildDashboardPayload, serialized as a JSON tree: the
five raw sub-objects plus the token usage (always present) and the nested
raw echo (which omits tokenUsage). -/
def buildDashboardPayloadJson (storage : Storage) (nowMs : Int)
    (sessionId : Option String) (boulder : Option BoulderView)
    (planFromReader : PlanProgressView) (stepsMissingFromReader : Bool)
    (planStepsFromReader : List PlanStep) (mainFromView : MainView)
    (sessionCreated : Option Int) (mainToolCalls : List ToolCallV)
    (timeSeries : TimeSeriesOut) : Json :=
  let planName := (boulder.bind BoulderView.plan_name).getD "(no active plan)"
  let planPath := (boulder.bind BoulderView.active_plan).getD ""
  let plan := match boulder with
    | some _ => planFromReader
    | none => ⟨0, 0, false, true⟩
  let stepsMissing := match boulder with
    | some _ => stepsMissingFromReader
    | none => true
  let main := match sessionId with
    | some _ => mainFromView
    | none => defaultMainView
  let tasks := match sessionId with
    | some sid => deriveBackgroundTasks storage sid nowMs
    | none => []
  let tokenUsage := deriveTokenUsage storage sessionId (tasks.map BackgroundTaskRow.sessionId)
  .obj [("mainSession", mainSessionJson main sessionId),
        ("planProgress", planProgressJson planName planPath plan stepsMissing planStepsFromReader),
        ("backgroundTasks", .arr (tasks.map backgroundTaskJson)),
        ("mainSessionTasks",
          .arr (mainSessionTasksJson sessionId main sessionCreated mainToolCalls nowMs)),
        ("timeSeries", timeSeriesJson timeSeries),
        ("tokenUsage", tokenUsageJson tokenUsage),
        ("raw", buildRawJson storage nowMs sessionId boulder planFromReader
          stepsMissingFromReader planStepsFromReader mainFromView sessionCreated
          mainToolCalls timeSeries)]

/-!
### The dashboard store

From dashboard.ts createDashboardStore (api.test.ts lines 608-659). The
snapshot computation is abstracted over the payload type; time is the
Date.now() observed at the start of the read.
-/

/-- The mutable state of one dashboard store. -/
structure StoreState (α : Type) where
  lastComputedAt : Int
  dirty : Bool
  cached : Option α
deriving DecidableEq, Repr

/-- The store state after createDashboardStore returns: nothing cached,
dirty set, lastComputedAt zero. -/
def initialStoreState {α : Type} : StoreState α :=
  ⟨0, true, none⟩

/-- From the file-watch collaborator: markDirty sets the dirty flag. -/
def markDirty {α : Type} (s : StoreState α) : StoreState α :=
  { s with dirty := true }

/-- From createDashboardStore getSnapshot: recompute when nothing is
cached, the dirty flag is set, or more than the poll TTL elapsed since the
last computation; otherwise return the cached snapshot and leave the state
untouched. -/
def getSnapshot {α : Type} (compute : Int → α) (pollIntervalMs : Int)
    (s : StoreState α) (now : Int) : Option α × StoreState α :=
  if s.cached.isNone || s.dirty || decide (now - s.lastComputedAt > pollIntervalMs) then
    let payload := compute now
    (some payload, ⟨now, false, some payload⟩)
  else (s.cached, s)

/-- The recomputation condition, stated as the specification phrases it:
no cached snapshot, or dirty, or more than the TTL elapsed. -/
def shouldRecompute {α : Type} (pollIntervalMs : Int) (s : StoreState α)
    (now : Int) : Prop :=
  s.cached = none ∨ s.dirty = true ∨ pollIntervalMs < now - s.lastComputedAt

instance {α : Type} (ttl : Int) (s : StoreState α) (now : Int) :
    Decidable (shouldRecompute ttl s now) := by
  unfold shouldRecompute
  have h : Decidable (s.cached = none) :=
    match s.cached with
    | none => isTrue rfl
    | some _ => isFalse (fun hx => Option.noConfusion hx)
  infer_instance

/-!
### Concrete artifact trees used to evaluate the claims
-/

/-- The empty artifact tree: no message or part directories, no session
root. -/
def emptyStorage : Storage :=
  ⟨fun _ => none, fun _ => none, none⟩

/-- An assistant message carrying a producer-embedded total of 999 next to
counters that sum to 1. -/
def embeddedTotalRec : MsgJson :=
  { id := .str "msg_1", role := .str "assistant", providerID := .str "openai",
    modelID := .str "gpt-5.2",
    tokens := some { input := .num 1, output := .num 0, reasoning := .num 0,
                     total := .num 999, cache := some ⟨.num 0, .num 0⟩ },
    created := none }

/-- An assistant message whose id is blank after trimming. -/
def blankIdRec : MsgJson :=
  { id := .str "   ", role := .str "assistant", providerID := .str "p",
    modelID := .str "m",
    tokens := some { input := .num 3, output := .num 2, reasoning := .num 1,
                     total := .undef, cache := some ⟨.num 4, .num 5⟩ },
    created := none }

/-- Two candidate sessions with identical created timestamps and ids that
differ only lexicographically (mirrors the repository's tie-break test). -/
def tieSessions : List SessionMetadata :=
  [⟨"ses_zzz", some "ses_main", some "Background: Tie-break test", some 1500⟩,
   ⟨"ses_aaa", some "ses_main", some "Background: Tie-break test", some 1500⟩]

/-- One delegate_task part file of the 51-part message. -/
def fiftyOnePart (i : Nat) : FileEntry PartJson :=
  { name := "p" ++ toString i ++ ".json", mtime := some 0,
    parsed := some { type := .str "tool", tool := .str "delegate_task",
                     callID := "call" ++ toString i,
                     state := some ⟨.obj ⟨some true, .str "task", .undef, .undef, .undef⟩⟩ } }

/-- The main-session message owning the 51 delegate parts. -/
def fiftyOneMeta : MetaVal :=
  .record { id := .str "msg_1", role := .str "assistant", providerID := .undef,
            modelID := .undef, tokens := none, created := some 1000 }

/-- An artifact tree in which the single main-session message carries 51
delegate_task parts. -/
def fiftyOneStorage : Storage :=
  { messageDirs := fun sid =>
      if sid = "ses_main" then some [⟨"msg_1.json", some 1, some fiftyOneMeta⟩] else none
    partDirs := fun mid =>
      if mid = "msg_1" then some ((List.range 51).map fiftyOnePart) else none
    sessionProjects := some [] }

/-- The main-session message of the zero-timestamp tree. -/
def zeroLuMainMeta : MetaVal :=
  .record { id := .str "msg_1", role := .str "assistant", providerID := .undef,
            modelID := .undef, tokens := none, created := some 1000 }

/-- The linked child session's only message, created at epoch 0. -/
def zeroLuChildMeta : MetaVal :=
  .record { id := .str "msg_child", role := .str "assistant", providerID := .undef,
            modelID := .undef, tokens := none, created := some 0 }

/-- The delegation part of the zero-timestamp tree. -/
def zeroLuPart : PartJson :=
  { type := .str "tool", tool := .str "delegate_task", callID := "call_1",
    state := some ⟨.obj ⟨some true, .str "D", .undef, .undef, .undef⟩⟩ }

/-- The child session meta of the zero-timestamp tree. -/
def zeroLuSessJson : SessJson :=
  { id := .str "ses_child", parentID := some "ses_main",
    title := some "Background: D", created := some 1500 }

/-- An artifact tree whose correlated child session has a last activity
timestamp of exactly 0 (a falsy number in JavaScript). -/
def zeroLuStorage : Storage :=
  { messageDirs := fun sid =>
      if sid = "ses_main" then some [⟨"msg_1.json", some 1, some zeroLuMainMeta⟩]
      else if sid = "ses_child" then some [⟨"msg_child.json", some 1, some zeroLuChildMeta⟩]
      else none
    partDirs := fun mid =>
      if mid = "msg_1" then some [⟨"part_1.json", some 1, some zeroLuPart⟩] else none
    sessionProjects := some [⟨"proj", true, [⟨"ses_child.json", some 1, some zeroLuSessJson⟩]⟩] }

/-- A time-series input declaring 3 buckets whose overall series carries a
single source value. -/
def shortSeriesInput : TsInput :=
  .obj { windowMs := .undef, buckets := .num 3, bucketMs := .undef,
         serverNowMs := .undef, anchorMs := .undef,
         series := some [⟨some "overall-main", some [.num 5]⟩] }

/-- A server time-series payload value used when instantiating the payload
theorems. -/
def sampleTimeSeries : TimeSeriesOut :=
  ⟨300000, 150, 2000, 0, 0, []⟩

/-- The statistics a delegation row is scored against: the linked
session's replay statistics, or the queued-row placeholder carrying the
delegation's start time. -/
def rowStatsOf (storage : Storage) (startedAt : Int) :
    Option String → SessionStats
  | some sid => statsFor storage sid
  | none => ⟨0, none, some startedAt⟩

/-- The row the zero-timestamp tree produces: linked to ses_child, yet
unknown with an empty timeline. -/
def zeroLuRow : BackgroundTaskRow :=
  ⟨"call_1", "D", "unknown", .unknown, some 0, none, none, "", some "ses_child"⟩

/-- Every object key that can occur in the raw sub-object of the dashboard
payload (the payload without tokenUsage). -/
def rawKeyList : List String :=
  ["mainSession", "planProgress", "backgroundTasks", "mainSessionTasks", "timeSeries",
   "agent", "currentModel", "currentTool", "lastUpdatedLabel", "session", "sessionId",
   "statusPill", "name", "completed", "total", "path", "steps", "checked", "text",
   "id", "description", "lastModel", "status", "toolCalls", "lastTool", "timeline",
   "subline", "windowMs", "bucketMs", "buckets", "anchorMs", "serverNowMs", "series",
   "label", "tone", "values"]

/-- Every object key that can occur anywhere in the dashboard payload,
including the token-usage aggregate (whose rows and totals serialize the
counter fields under the keys input and output). -/
def payloadKeyList : List String :=
  rawKeyList ++ ["tokenUsage", "raw", "rows", "totals", "model", "input", "output",
    "reasoning", "cacheRead", "cacheWrite"]

/-- The per-row total-column invariant: the total field of every row is
the sum of its five counter fields. -/
def rowsTotalsOk (rows : List TokenUsageRow) : Prop :=
  ∀ r ∈ rows, r.total = r.input + r.output + r.reasoning + r.cacheRead + r.cacheWrite

/-!
## Theorems

Helper lemmas come first, then one theorem per claim (with its witness or
counterexample where required).
-/

theorem strLeb_total (as bs : List Char) : strLeb as bs = true ∨ strLeb bs as = true := by
  induction as generalizing bs with
  | nil => exact Or.inl rfl
  | cons a as ih =>
    cases bs with
    | nil => exact Or.inr rfl
    | cons b bs =>
      by_cases h1 : a.toNat < b.toNat
      · left; simp [strLeb, h1]
      · by_cases h2 : b.toNat < a.toNat
        · right; simp [strLeb, h2]
        · rcases ih bs with h | h
          · left; simp [strLeb, h1, h2, h]
          · right; simp [strLeb, h1, h2, h]

theorem strLeb_trans {as bs cs : List Char} (h1 : strLeb as bs = true)
    (h2 : strLeb bs cs = true) : strLeb as cs = true := by
  induction as generalizing bs cs with
  | nil => rfl
  | cons a as ih =>
    cases bs with
    | nil => simp [strLeb] at h1
    | cons b bs =>
      cases cs with
      | nil => simp [strLeb] at h2
      | cons c cs =>
        simp only [strLeb] at h1 h2 ⊢
        by_cases hab : a.toNat < b.toNat
        · by_cases hbc : b.toNat < c.toNat
          · simp [show a.toNat < c.toNat by omega]
          · by_cases hcb : c.toNat < b.toNat
            · simp [hbc, hcb] at h2
            · simp [show a.toNat < c.toNat by omega]
        · by_cases hba : b.toNat < a.toNat
          · simp [hab, hba] at h1
          · simp only [hab, hba, if_false, reduceIte, ite_false] at h1
            by_cases hbc : b.toNat < c.toNat
            · simp [show a.toNat < c.toNat by omega]
            · by_cases hcb : c.toNat < b.toNat
              · simp [hbc, hcb] at h2
              · simp only [hbc, hcb, if_false, reduceIte, ite_false] at h2
                simp [show ¬ a.toNat < c.toNat by omega,
                  show ¬ c.toNat < a.toNat by omega, ih h1 h2]

theorem localeLe_total (a b : String) : localeLe a b = true ∨ localeLe b a = true :=
  strLeb_total a.data b.data

theorem localeLe_trans {a b c : String} (h1 : localeLe a b = true)
    (h2 : localeLe b c = true) : localeLe a c = true :=
  strLeb_trans h1 h2

theorem colSums_nil : colSums [] = 0 := rfl

theorem colSums_cons (r : TokenUsageRow) (rows : List TokenUsageRow) :
    colSums (r :: rows) = rowTotals r + colSums rows := by
  simp [colSums, List.map_cons, List.sum_cons]

theorem sumRows_go (acc : TokenUsageTotals) (rows : List TokenUsageRow) :
    rows.foldl
      (fun acc r =>
        ⟨acc.input + r.input, acc.output + r.output, acc.reasoning + r.reasoning,
          acc.cacheRead + r.cacheRead, acc.cacheWrite + r.cacheWrite, acc.total + r.total⟩)
      acc = acc + colSums rows := by
  induction rows generalizing acc with
  | nil => simp [colSums]
  | cons r rest ih =>
    rw [List.foldl_cons, ih, colSums_cons]
    show (acc + rowTotals r) + colSums rest = acc + (rowTotals r + colSums rest)
    rw [add_assoc]

theorem sumRows_eq_colSums (rows : List TokenUsageRow) :
    sumRows rows = colSums rows := by
  unfold sumRows
  rw [sumRows_go]
  exact zero_add _

theorem colSums_addToRows (rows : List TokenUsageRow) (model : String)
    (c : TokenUsageTotals) :
    colSums (addToRows rows model c) = colSums rows + c := by
  induction rows with
  | nil =>
    show colSums [⟨model, c.input, c.output, c.reasoning, c.cacheRead, c.cacheWrite, c.total⟩]
      = colSums [] + c
    rw [colSums_cons, colSums_nil]
    show c + 0 = 0 + c
    rw [add_zero, zero_add]
  | cons r rest ih =>
    by_cases h : r.model = model
    · rw [show addToRows (r :: rest) model c
          = ⟨r.model, r.input + c.input, r.output + c.output, r.reasoning + c.reasoning,
              r.cacheRead + c.cacheRead, r.cacheWrite + c.cacheWrite, r.total + c.total⟩ :: rest
        from by simp [addToRows, h]]
      rw [colSums_cons, colSums_cons]
      show (rowTotals r + c) + colSums rest = (rowTotals r + colSums rest) + c
      rw [add_right_comm]
    · rw [show addToRows (r :: rest) model c = r :: addToRows rest model c
        from by simp [addToRows, h]]
      rw [colSums_cons, colSums_cons, ih, add_assoc]

theorem foldl_aggStep_colSums (metas : List MetaVal) :
    ∀ s : AggState,
      colSums ((metas.foldl aggStep s).rows)
        = colSums s.rows + ((processedAux s.seen metas).1.map contribOf).sum := by
  induction metas with
  | nil => intro s; simp [processedAux]
  | cons m rest ih =>
    intro s
    cases m with
    | prim => simpa [aggStep, processedAux] using ih s
    | record j =>
      by_cases hrole : readString j.role = some "assistant"
      · cases hid : readString j.id with
        | some id =>
          by_cases hseen : id ∈ s.seen
          · simpa [aggStep, processedAux, hrole, hid, hseen] using ih s
          · have := ih ⟨addToRows s.rows (modelKey j) (contribOf j), id :: s.seen⟩
            simp only [aggStep, processedAux, hrole, hid, hseen, if_pos, if_true, if_neg,
              List.foldl_cons, ite_true, ite_false, reduceIte] at this ⊢
            rw [this, colSums_addToRows, List.map_cons, List.sum_cons, add_assoc,
              add_comm (contribOf j)]
        | none =>
          have := ih ⟨addToRows s.rows (modelKey j) (contribOf j), s.seen⟩
          simp only [aggStep, processedAux, hrole, hid, List.foldl_cons, ite_true,
            reduceIte] at this ⊢
          rw [this, colSums_addToRows, List.map_cons, List.sum_cons, add_assoc,
            add_comm (contribOf j)]
      · simpa [aggStep, processedAux, hrole] using ih s

theorem totals_eq_colSums (metas : List MetaVal) :
    (aggregateTokenUsage metas).totals = colSums (aggregateTokenUsage metas).rows := by
  unfold aggregateTokenUsage
  exact sumRows_eq_colSums _

theorem colSums_insertionSort (rows : List TokenUsageRow) :
    colSums (List.insertionSort rowRel rows) = colSums rows := by
  unfold colSums
  exact List.Perm.sum_eq (List.Perm.map _ (List.perm_insertionSort _ _))

theorem totals_eq_independentSum (metas : List MetaVal) :
    (aggregateTokenUsage metas).totals = independentSum metas := by
  rw [totals_eq_colSums]
  show colSums (List.insertionSort rowRel ((metas.foldl aggStep ⟨[], []⟩).rows)) = _
  rw [colSums_insertionSort, foldl_aggStep_colSums metas ⟨[], []⟩]
  show colSums [] + _ = _
  rw [colSums_nil, zero_add]
  rfl

/-- Claim C2: for every input list of message metas (including duplicate
message ids and non-finite or negative token fields), the totals record of
aggregateTokenUsage equals the column-wise sum over its rows in each of
the six fields, and also equals an independent sum of the clamped
per-message contributions after deduplication by message id. -/
theorem claim_c2_totals_column_sums (metas : List MetaVal) :
    (aggregateTokenUsage metas).totals = colSums (aggregateTokenUsage metas).rows
    ∧ (aggregateTokenUsage metas).totals = independentSum metas :=
  ⟨totals_eq_colSums metas, totals_eq_independentSum metas⟩

theorem contribOf_total (j : MsgJson) :
    (contribOf j).total
      = (contribOf j).input + (contribOf j).output + (contribOf j).reasoning
        + (contribOf j).cacheRead + (contribOf j).cacheWrite := rfl

theorem rowsTotalsOk_addToRows {rows : List TokenUsageRow} {model : String}
    {c : TokenUsageTotals}
    (hrows : rowsTotalsOk rows)
    (hc : c.total = c.input + c.output + c.reasoning + c.cacheRead + c.cacheWrite) :
    rowsTotalsOk (addToRows rows model c) := by
  induction rows with
  | nil =>
    intro r hr
    simp only [addToRows, List.mem_singleton] at hr
    subst hr
    simpa using hc
  | cons hd rest ih =>
    intro r hr
    by_cases h : hd.model = model
    · simp only [addToRows, h, if_pos, ite_true, reduceIte, List.mem_cons] at hr
      rcases hr with hr | hr
      · subst hr
        have h1 := hrows hd (List.mem_cons_self _ _)
        simp only []
        omega
      · exact hrows r (List.mem_cons_of_mem _ hr)
    · simp only [addToRows, h, ite_false, reduceIte, List.mem_cons] at hr
      rcases hr with hr | hr
      · subst hr; exact hrows r (List.mem_cons_self _ _)
      · exact ih (fun x hx => hrows x (List.mem_cons_of_mem _ hx)) r hr

theorem rowsTotalsOk_foldl (metas : List MetaVal) :
    ∀ s : AggState, rowsTotalsOk s.rows → rowsTotalsOk ((metas.foldl aggStep s).rows) := by
  induction metas with
  | nil => intro s hs; exact hs
  | cons m rest ih =>
    intro s hs
    cases m with
    | prim => exact ih s hs
    | record j =>
      by_cases hrole : readString j.role = some "assistant"
      · cases hid : readString j.id with
        | some id =>
          by_cases hseen : id ∈ s.seen
          · simpa [aggStep, hrole, hid, hseen] using ih s hs
          · have hstep : rowsTotalsOk (addToRows s.rows (modelKey j) (contribOf j)) :=
              rowsTotalsOk_addToRows hs (contribOf_total j)
            simpa [aggStep, hrole, hid, hseen] using
              ih ⟨addToRows s.rows (modelKey j) (contribOf j), id :: s.seen⟩ hstep
        | none =>
          have hstep : rowsTotalsOk (addToRows s.rows (modelKey j) (contribOf j)) :=
            rowsTotalsOk_addToRows hs (contribOf_total j)
          simpa [aggStep, hrole, hid] using
            ih ⟨addToRows s.rows (modelKey j) (contribOf j), s.seen⟩ hstep
      · simpa [aggStep, hrole] using ih s hs

theorem rowsTotalsOk_colSums {rows : List TokenUsageRow} (h : rowsTotalsOk rows) :
    (colSums rows).total
      = (colSums rows).input + (colSums rows).output + (colSums rows).reasoning
        + (colSums rows).cacheRead + (colSums rows).cacheWrite := by
  induction rows with
  | nil => rfl
  | cons r rest ih =>
    have hr := h r (List.mem_cons_self _ _)
    have hrest := ih (fun x hx => h x (List.mem_cons_of_mem _ hx))
    rw [colSums_cons]
    show (rowTotals r).total + (colSums rest).total = _
    simp only [rowTotals] at hr ⊢
    change _ = (r.input + (colSums rest).input) + (r.output + (colSums rest).output)
      + (r.reasoning + (colSums rest).reasoning) + (r.cacheRead + (colSums rest).cacheRead)
      + (r.cacheWrite + (colSums rest).cacheWrite)
    omega

theorem aggregateTokenUsage_rows_ok (metas : List MetaVal) :
    rowsTotalsOk (aggregateTokenUsage metas).rows := by
  intro r hr
  have hbase : rowsTotalsOk ((metas.foldl aggStep ⟨[], []⟩).rows) :=
    rowsTotalsOk_foldl metas ⟨[], []⟩ (fun x hx => absurd hx (List.not_mem_nil x))
  have hmem : r ∈ (metas.foldl aggStep ⟨[], []⟩).rows :=
    (List.perm_insertionSort rowRel _).mem_iff.mp hr
  exact hbase r hmem

/-- Claim C3 counterexample: a message carrying a well-formed embedded
producer total of 999 next to counters summing to 1 contributes 1, not
999 — the aggregator never reads the embedded total. -/
theorem claim_c3_counterexample :
    (aggregateTokenUsage [.record embeddedTotalRec]).totals.total = 1
    ∧ ((1 : Nat) = 999 → False) := by
  constructor
  · decide
  · decide

/-- Claim C3 (amended): the per-message total contribution is always the
sum of the five clamped counters — an embedded producer total is ignored —
so every row and the totals record of aggregateTokenUsage satisfy
total = input + output + reasoning + cacheRead + cacheWrite. -/
theorem claim_c3_total_is_counter_sum (metas : List MetaVal) :
    rowsTotalsOk (aggregateTokenUsage metas).rows
    ∧ (aggregateTokenUsage metas).totals.total
      = (aggregateTokenUsage metas).totals.input
        + (aggregateTokenUsage metas).totals.output
        + (aggregateTokenUsage metas).totals.reasoning
        + (aggregateTokenUsage metas).totals.cacheRead
        + (aggregateTokenUsage metas).totals.cacheWrite := by
  refine ⟨aggregateTokenUsage_rows_ok metas, ?_⟩
  rw [totals_eq_colSums]
  exact rowsTotalsOk_colSums (aggregateTokenUsage_rows_ok metas)

/-- Claim C3 witness: the amended theorem evaluated on the concrete
embedded-total message. -/
theorem claim_c3_witness :
    (aggregateTokenUsage [.record embeddedTotalRec]).totals.total
      = (aggregateTokenUsage [.record embeddedTotalRec]).totals.input
        + (aggregateTokenUsage [.record embeddedTotalRec]).totals.output
        + (aggregateTokenUsage [.record embeddedTotalRec]).totals.reasoning
        + (aggregateTokenUsage [.record embeddedTotalRec]).totals.cacheRead
        + (aggregateTokenUsage [.record embeddedTotalRec]).totals.cacheWrite :=
  (claim_c3_total_is_counter_sum [.record embeddedTotalRec]).2

theorem processedAux_fst_append (xs ys : List MetaVal) :
    ∀ seen : List String,
      (processedAux seen (xs ++ ys)).1
        = (processedAux seen xs).1 ++ (processedAux (processedAux seen xs).2 ys).1 := by
  induction xs with
  | nil => intro seen; simp [processedAux]
  | cons m rest ih =>
    intro seen
    cases m with
    | prim => simpa [processedAux] using ih seen
    | record j =>
      by_cases hrole : readString j.role = some "assistant"
      · cases hid : readString j.id with
        | some id =>
          by_cases hseen : id ∈ seen
          · simpa [processedAux, hrole, hid, hseen] using ih seen
          · simp [processedAux, hrole, hid, hseen, ih (id :: seen)]
        | none => simp [processedAux, hrole, hid, ih seen]
      · simpa [processedAux, hrole] using ih seen

/-- Claim C10: a message meta whose id is missing, non-string, or blank
after trimming never participates in duplicate suppression — appending it
once more to any input adds its clamped contribution to the totals again
(so two occurrences contribute twice). -/
theorem claim_c10_blank_id_counted_each_time (ms : List MetaVal) (j : MsgJson)
    (hrole : readString j.role = some "assistant")
    (hid : readString j.id = none) :
    (aggregateTokenUsage (ms ++ [.record j, .record j])).totals
      = (aggregateTokenUsage (ms ++ [.record j])).totals + contribOf j := by
  rw [totals_eq_independentSum, totals_eq_independentSum]
  unfold independentSum processedMetas
  rw [processedAux_fst_append ms [.record j, .record j] [],
    processedAux_fst_append ms [.record j] []]
  simp [processedAux, hrole, hid, add_assoc]

/-- Claim C10 witness: the theorem evaluated on the concrete blank-id
message (its id is three spaces). -/
theorem claim_c10_witness :
    (aggregateTokenUsage ([] ++ [.record blankIdRec, .record blankIdRec])).totals
      = (aggregateTokenUsage ([] ++ [.record blankIdRec])).totals + contribOf blankIdRec :=
  claim_c10_blank_id_counted_each_time [] blankIdRec (by decide) (by decide)

instance : IsTotal SessionMetadata sessCandRel :=
  ⟨by
    intro a b
    unfold sessCandRel
    rcases lt_trichotomy (b.created.getD 0) (a.created.getD 0) with h | h | h
    · exact Or.inl (Or.inl h)
    · rcases localeLe_total a.id b.id with hid | hid
      · exact Or.inl (Or.inr ⟨h, hid⟩)
      · exact Or.inr (Or.inr ⟨h.symm, hid⟩)
    · exact Or.inr (Or.inl h)⟩

instance : IsTrans SessionMetadata sessCandRel :=
  ⟨by
    intro a b c hab hbc
    unfold sessCandRel at hab hbc ⊢
    rcases hab with h1 | ⟨h1, h1'⟩ <;> rcases hbc with h2 | ⟨h2, h2'⟩
    · exact Or.inl (lt_trans h2 h1)
    · exact Or.inl (lt_of_eq_of_lt h2 h1)
    · exact Or.inl (lt_of_lt_of_eq h2 h1)
    · exact Or.inr ⟨h2.trans h1, localeLe_trans h1' h2'⟩⟩

/-- The head of a stably sorted list is minimal for the sort relation
among all elements of the original list. -/
theorem insertionSort_head_min {α : Type} (r : α → α → Prop) [DecidableRel r]
    [IsTotal α r] [IsTrans α r] (l : List α) (x : α)
    (hx : (List.insertionSort r l).head? = some x) :
    x ∈ l ∧ ∀ y ∈ l, r x y := by
  have hsorted : List.Sorted r (List.insertionSort r l) := List.sorted_insertionSort r l
  have hperm := List.perm_insertionSort r l
  cases hs : List.insertionSort r l with
  | nil => rw [hs] at hx; exact absurd hx (by simp)
  | cons a t =>
    rw [hs] at hx hsorted hperm
    have hax : a = x := by simpa using hx
    subst hax
    refine ⟨hperm.subset (List.mem_cons_self _ _), ?_⟩
    intro y hy
    rcases List.mem_cons.mp (hperm.symm.subset hy) with h | h
    · subst h
      exact (IsTotal.total (r := r) y y).elim id id
    · exact (List.sorted_cons.mp hsorted).1 y h

/-- Claim C4 counterexample: with two candidate sessions of identical
created timestamps, the correlator selects ses_aaa, which is NOT the
lexicographically greatest of the two ids. -/
theorem claim_c4_counterexample :
    findBackgroundSessionId tieSessions "ses_main" "Tie-break test" 1000 = some "ses_aaa"
    ∧ localeLe "ses_zzz" "ses_aaa" = false
    ∧ (∀ m ∈ tieSessions, m.created = some 1500) := by
  refine ⟨by decide, by decide, by decide⟩

/-- Claim C4 (amended): among the candidate sessions (matching parentId,
the "Background: " title, and the 60-second window), the correlator
selects one with the maximum createdAt, and among candidates with
identical createdAt the lexicographically SMALLEST id; when any candidate
exists, one is selected. -/
theorem claim_c4_tie_break_smallest (metas : List SessionMetadata)
    (parent desc : String) (startedAt : Int) :
    (∀ sid, findBackgroundSessionId metas parent desc startedAt = some sid →
      ∃ m, m ∈ sessionCandidates metas parent ("Background: " ++ desc) startedAt
        ∧ m.id = sid
        ∧ ∀ m' ∈ sessionCandidates metas parent ("Background: " ++ desc) startedAt,
            m'.created.getD 0 < m.created.getD 0
              ∨ (m'.created.getD 0 = m.created.getD 0 ∧ localeLe m.id m'.id = true))
    ∧ (sessionCandidates metas parent ("Background: " ++ desc) startedAt ≠ [] →
        ∃ sid, findBackgroundSessionId metas parent desc startedAt = some sid) := by
  constructor
  · intro sid h
    unfold findBackgroundSessionId findSessionIdByTitle at h
    rcases Option.map_eq_some'.mp h with ⟨m, hm, hid⟩
    rcases insertionSort_head_min sessCandRel _ m hm with ⟨hmem, hmin⟩
    exact ⟨m, hmem, hid, fun m' hm' => hmin m' hm'⟩
  · intro hne
    unfold findBackgroundSessionId findSessionIdByTitle
    cases hs : List.insertionSort sessCandRel
        (sessionCandidates metas parent ("Background: " ++ desc) startedAt) with
    | nil =>
      exact absurd ((List.perm_insertionSort sessCandRel _).symm.trans
        (hs ▸ List.Perm.refl _) |>.eq_nil) hne
    | cons a t => exact ⟨a.id, rfl⟩

/-- Claim C4 witness: the amended theorem evaluated on the concrete tied
candidates, selecting ses_aaa. -/
theorem claim_c4_witness :
    ∃ m, m ∈ sessionCandidates tieSessions "ses_main" ("Background: " ++ "Tie-break test") 1000
      ∧ m.id = "ses_aaa"
      ∧ ∀ m' ∈ sessionCandidates tieSessions "ses_main" ("Background: " ++ "Tie-break test") 1000,
          m'.created.getD 0 < m.created.getD 0
            ∨ (m'.created.getD 0 = m.created.getD 0 ∧ localeLe m.id m'.id = true) :=
  (claim_c4_tie_break_smallest tieSessions "ses_main" "Tie-break test" 1000).1
    "ses_aaa" (by decide)

instance {α : Type} : IsTotal (FileEntry α) byMtimeDesc :=
  ⟨fun a b => le_total (mtimeKey b) (mtimeKey a)⟩

instance {α : Type} : IsTrans (FileEntry α) byMtimeDesc :=
  ⟨fun _ _ _ h1 h2 => le_trans h2 h1⟩

/-- Claim C8: the recent-message reader is total over every directory
state: a missing directory yields the empty list, the result never
exceeds the cap, the scanned files are ordered by modification time
descending (with 0 substituted where stat fails), and exactly the entries
that parse to a record with a string id survive, in that order. Files
that fail to parse or lack a string id are skipped rather than raising. -/
theorem claim_c8_read_recent_spec (dir : Option (List (FileEntry MetaVal))) (cap : Nat) :
    (dir = none → readRecentMessageMetas dir cap = [])
    ∧ (readRecentMessageMetas dir cap).length ≤ cap
    ∧ List.Pairwise byMtimeDesc (recentFiles dir cap)
    ∧ readRecentMessageMetas dir cap
        = (recentFiles dir cap).filterMap (fun e => e.parsed.bind validMsg) := by
  refine ⟨?_, ?_, ?_, ?_⟩
  · intro h; subst h; rfl
  · cases dir with
    | none => simp [readRecentMessageMetas]
    | some files =>
      calc (readRecentMessageMetas (some files) cap).length
          ≤ ((List.insertionSort byMtimeDesc (listJsonFiles files)).take cap).length :=
            List.length_filterMap_le _ _
        _ ≤ cap := List.length_take_le _ _
  · cases dir with
    | none => simp [recentFiles]
    | some files =>
      exact List.Pairwise.sublist (List.take_sublist _ _)
        (List.sorted_insertionSort byMtimeDesc (listJsonFiles files))
  · cases dir <;> rfl

/-- Claim C8 witness: the theorem evaluated at the missing directory with
the default cap of 200. -/
theorem claim_c8_witness : readRecentMessageMetas none 200 = [] :=
  (claim_c8_read_recent_spec none 200).1 rfl

theorem btLoop_length_le (storage : Storage) (allSess : List SessionMetadata)
    (sid : String) (nowMs : Int)
    (h : ∀ (mid : String) (startedAt : Int),
      ((readToolPartsForMessage storage mid).filterMap
        (delegateRow storage allSess sid nowMs startedAt)).length ≤ 1) :
    ∀ (metas : List StoredMessageMeta) (rows : List BackgroundTaskRow),
      rows.length ≤ 49 →
      (btLoop storage allSess sid nowMs rows metas).length ≤ 50 := by
  intro metas
  induction metas with
  | nil =>
    intro rows hr
    exact le_trans hr (by omega)
  | cons m rest ih =>
    intro rows hr
    cases hc : m.created with
    | none => simpa [btLoop, hc] using ih rows hr
    | some startedAt =>
      have hlen := h m.id startedAt
      simp only [btLoop, hc]
      by_cases hcap : 50 ≤ (rows ++ (readToolPartsForMessage storage m.id).filterMap
          (delegateRow storage allSess sid nowMs startedAt)).length
      · rw [if_pos hcap]
        rw [List.length_append]
        omega
      · rw [if_neg hcap]
        refine ih _ ?_
        rw [List.length_append] at hcap ⊢
        omega

/-- Claim C5 counterexample: an artifact tree whose single main-session
message carries 51 delegate_task parts makes deriveBackgroundTasks return
51 rows — the 50-row cap is only checked between messages. -/
theorem claim_c5_counterexample :
    (deriveBackgroundTasks fiftyOneStorage "ses_main" 0).length = 51
    ∧ ¬(deriveBackgroundTasks fiftyOneStorage "ses_main" 0).length ≤ 50 := by
  refine ⟨by decide, by decide⟩

/-- Claim C5 (amended): the scan stops at the end of the first message
that brings the row count to 50 or more, so when every message contributes
at most one row the result has at most 50 rows; a single message with
several delegate_task parts can push the count past 50. -/
theorem claim_c5_row_cap (storage : Storage) (mainSessionId : String) (nowMs : Int)
    (h : ∀ (mid : String) (startedAt : Int),
      ((readToolPartsForMessage storage mid).filterMap
        (delegateRow storage (readAllSessionMetas storage) mainSessionId nowMs startedAt)).length
        ≤ 1) :
    (deriveBackgroundTasks storage mainSessionId nowMs).length ≤ 50 := by
  unfold deriveBackgroundTasks
  exact btLoop_length_le storage (readAllSessionMetas storage) mainSessionId nowMs h _ []
    (by simp)

/-- Claim C5 witness: the amended cap evaluated on the empty artifact
tree. -/
theorem claim_c5_witness :
    (deriveBackgroundTasks emptyStorage "ses_main" 0).length ≤ 50 :=
  claim_c5_row_cap emptyStorage "ses_main" 0
    (fun mid st => by simp [readToolPartsForMessage, emptyStorage])

theorem formatTimeline_some_ne_empty (s e : Int) : formatTimeline (some s) e ≠ "" := by
  unfold formatTimeline
  intro h
  have hlen := congrArg String.length h
  rw [String.length_append, String.length_append] at hlen
  have h2 : (": ").length = 2 := rfl
  have h0 : ("" : String).length = 0 := rfl
  omega

theorem statusOf_some_running_iff (sid : String) (stats : SessionStats) (nowMs : Int) :
    statusOf (some sid) stats nowMs = .running ↔ runningCond stats nowMs := by
  obtain ⟨tc, lt, lu⟩ := stats
  cases lu with
  | none =>
    simp only [statusOf, runningCond, iff_false]
    split <;> simp
  | some v =>
    simp only [statusOf, runningCond]
    by_cases hcond : v ≠ 0 ∧ nowMs - v ≤ 15000
    · simp [hcond]
    · rw [if_neg hcond]
      simp only [hcond, iff_false]
      split <;> simp

theorem statusOf_some_completed_iff (sid : String) (stats : SessionStats) (nowMs : Int) :
    statusOf (some sid) stats nowMs = .completed
      ↔ (¬runningCond stats nowMs ∧ 0 < stats.toolCalls) := by
  obtain ⟨tc, lt, lu⟩ := stats
  cases lu with
  | none =>
    simp only [statusOf, runningCond]
    split <;> simp_all
  | some v =>
    simp only [statusOf, runningCond]
    by_cases hcond : v ≠ 0 ∧ nowMs - v ≤ 15000
    · simp [hcond]
    · rw [if_neg hcond]
      split <;> simp_all

theorem statusOf_some_unknown_iff (sid : String) (stats : SessionStats) (nowMs : Int) :
    statusOf (some sid) stats nowMs = .unknown
      ↔ (¬runningCond stats nowMs ∧ stats.toolCalls = 0) := by
  obtain ⟨tc, lt, lu⟩ := stats
  cases lu with
  | none =>
    simp only [statusOf, runningCond]
    split <;> simp_all <;> omega
  | some v =>
    simp only [statusOf, runningCond]
    by_cases hcond : v ≠ 0 ∧ nowMs - v ≤ 15000
    · simp [hcond]
    · rw [if_neg hcond]
      split <;> simp_all <;> omega

theorem statusOf_some_ne_queued (sid : String) (stats : SessionStats) (nowMs : Int) :
    statusOf (some sid) stats nowMs ≠ .queued := by
  obtain ⟨tc, lt, lu⟩ := stats
  cases lu with
  | none =>
    simp only [statusOf]
    split <;> simp
  | some v =>
    simp only [statusOf]
    split
    · simp
    · split <;> simp

theorem timeline_empty_iff (bsid : Option String) (st : SessionStats)
    (nowMs startedAt : Int) :
    ((if statusOf bsid st nowMs = TaskStatus.unknown then ""
      else formatTimeline (some startedAt)
        (if statusOf bsid st nowMs = TaskStatus.completed then st.lastUpdateAt.getD nowMs
         else nowMs)) = "")
      ↔ statusOf bsid st nowMs = TaskStatus.unknown := by
  split
  · simp_all
  · rename_i hne
    simp [hne, formatTimeline_some_ne_empty startedAt]

theorem delegateRow_spec {storage : Storage} {allSess : List SessionMetadata}
    {sid : String} {nowMs startedAt : Int} {p : StoredToolPart} {r : BackgroundTaskRow}
    (h : delegateRow storage allSess sid nowMs startedAt p = some r) :
    r.status = statusOf r.sessionId (rowStatsOf storage startedAt r.sessionId) nowMs
    ∧ (r.timeline = "" ↔ r.status = .unknown) := by
  unfold delegateRow at h
  by_cases h1 : p.tool ≠ "delegate_task"
  · simp [h1] at h
  · rw [if_neg (by simpa using h1)] at h
    cases hinput : p.state.input with
    | prim => simp [hinput] at h
    | missing => simp [hinput] at h
    | obj inp =>
      simp only [hinput] at h
      cases hrib : inp.run_in_background with
      | none => simp [hrib] at h
      | some rib =>
        simp only [hrib] at h
        cases hdesc : clampString inp.description 120 with
        | none => simp [hdesc] at h
        | some description =>
          simp only [hdesc, Option.some.injEq] at h
          subst h
          constructor
          · show statusOf _ _ nowMs = statusOf _ (rowStatsOf storage startedAt _) nowMs
            cases hbs : (if rib
              then findBackgroundSessionId allSess sid description startedAt
              else match resumeSessionId storage inp.resume with
                | some rsid => some rsid
                | none =>
                  match findBackgroundSessionId allSess sid description startedAt with
                  | some fsid => some fsid
                  | none => findTaskSessionId allSess sid description startedAt) with
            | none => rfl
            | some s => rfl
          · exact timeline_empty_iff _ _ nowMs startedAt

theorem mem_btLoop {storage : Storage} {allSess : List SessionMetadata}
    {sid : String} {nowMs : Int} :
    ∀ {metas : List StoredMessageMeta} {rows : List BackgroundTaskRow}
      {r : BackgroundTaskRow},
      r ∈ btLoop storage allSess sid nowMs rows metas →
      r ∈ rows ∨ ∃ (m : StoredMessageMeta) (startedAt : Int),
        m ∈ metas ∧ m.created = some startedAt ∧
          ∃ p ∈ readToolPartsForMessage storage m.id,
            delegateRow storage allSess sid nowMs startedAt p = some r := by
  intro metas
  induction metas with
  | nil => intro rows r h; exact Or.inl h
  | cons m rest ih =>
    intro rows r h
    cases hc : m.created with
    | none =>
      simp only [btLoop, hc] at h
      rcases ih h with h | ⟨m', st, hm', hc', p, hp, hpr⟩
      · exact Or.inl h
      · exact Or.inr ⟨m', st, List.mem_cons_of_mem _ hm', hc', p, hp, hpr⟩
    | some st =>
      simp only [btLoop, hc] at h
      by_cases hcap : 50 ≤ (rows ++ (readToolPartsForMessage storage m.id).filterMap
          (delegateRow storage allSess sid nowMs st)).length
      · rw [if_pos hcap] at h
        rcases List.mem_append.mp h with h | h
        · exact Or.inl h
        · rcases List.mem_filterMap.mp h with ⟨p, hp, hpr⟩
          exact Or.inr ⟨m, st, List.mem_cons_self _ _, hc, p, hp, hpr⟩
      · rw [if_neg hcap] at h
        rcases ih h with h | ⟨m', st', hm', hc', p, hp, hpr⟩
        · rcases List.mem_append.mp h with h | h
          · exact Or.inl h
          · rcases List.mem_filterMap.mp h with ⟨p, hp, hpr⟩
            exact Or.inr ⟨m, st, List.mem_cons_self _ _, hc, p, hp, hpr⟩
        · exact Or.inr ⟨m', st', List.mem_cons_of_mem _ hm', hc', p, hp, hpr⟩

/-- Claim C6 (amended): for every derived delegation row, queued holds
exactly when no session was linked; running exactly when a session was
linked and its replay statistics carry a present, non-zero last-activity
timestamp with nowMs - lastActivity at most 15000 (the truthiness test of
the source excludes a last activity of exactly 0, and a future last
activity also counts as running); completed exactly when a session was
linked, the running condition fails, and at least one tool call was
replayed; unknown exactly when a session was linked, the running condition
fails, and no tool call was replayed; and the timeline string is empty
exactly when the status is unknown. -/
theorem claim_c6_status_characterization (storage : Storage) (mainSessionId : String)
    (nowMs : Int) :
    ∀ r ∈ deriveBackgroundTasks storage mainSessionId nowMs,
      (r.status = .queued ↔ r.sessionId = none)
      ∧ (r.status = .running ↔ ∃ s, r.sessionId = some s
          ∧ runningCond (statsFor storage s) nowMs)
      ∧ (r.status = .completed ↔ ∃ s, r.sessionId = some s
          ∧ ¬runningCond (statsFor storage s) nowMs ∧ 0 < (statsFor storage s).toolCalls)
      ∧ (r.status = .unknown ↔ ∃ s, r.sessionId = some s
          ∧ ¬runningCond (statsFor storage s) nowMs ∧ (statsFor storage s).toolCalls = 0)
      ∧ (r.timeline = "" ↔ r.status = .unknown) := by
  intro r hr
  unfold deriveBackgroundTasks at hr
  rcases mem_btLoop hr with h | ⟨m, st, _hm, _hc, p, _hp, hrow⟩
  · exact absurd h (List.not_mem_nil r)
  · rcases delegateRow_spec hrow with ⟨hstat, htl⟩
    cases hsid : r.sessionId with
    | none =>
      rw [hsid] at hstat
      have hq : r.status = .queued := hstat
      refine ⟨?_, ?_, ?_, ?_, ?_⟩
      · simp [hq, hsid]
      · simp [hq, hsid]
      · simp [hq, hsid]
      · simp [hq, hsid]
      · exact htl
    | some s =>
      rw [hsid] at hstat
      have hss : rowStatsOf storage st (some s) = statsFor storage s := rfl
      rw [hss] at hstat
      refine ⟨?_, ?_, ?_, ?_, ?_⟩
      · rw [hstat]
        simp [hsid, statusOf_some_ne_queued]
      · rw [hstat, statusOf_some_running_iff]
        simp [hsid]
      · rw [hstat, statusOf_some_completed_iff]
        simp [hsid]
      · rw [hstat, statusOf_some_unknown_iff]
        simp [hsid]
      · exact htl

/-- Claim C6 counterexample: in the zero-timestamp tree the row is linked
to ses_child, whose last activity (epoch 0) lies within 15000 ms of
nowMs = 1000, yet the status is unknown (not running) and the timeline is
empty — the claim's running clause is violated because 0 is falsy. -/
theorem claim_c6_counterexample :
    deriveBackgroundTasks zeroLuStorage "ses_main" 1000 = [zeroLuRow]
    ∧ (statsFor zeroLuStorage "ses_child").lastUpdateAt = some 0
    ∧ (statsFor zeroLuStorage "ses_child").toolCalls = 0
    ∧ ((1000 : Int) - 0 ≤ 15000)
    ∧ zeroLuRow.sessionId = some "ses_child"
    ∧ zeroLuRow.status ≠ .running := by
  refine ⟨by decide, by decide, by decide, by decide, by decide, by decide⟩

theorem seriesValues_pad (rec : TsInputRec) (id : String) (b : Nat)
    (h : (seriesParsed rec id).length < b) :
    seriesValues rec id b
      = seriesParsed rec id ++ List.replicate (b - (seriesParsed rec id).length) 0 := by
  show (let parsed := seriesParsed rec id
    let trimmed := if b < parsed.length then List.drop (parsed.length - b) parsed else parsed
    if trimmed.length < b then trimmed ++ List.replicate (b - trimmed.length) 0 else trimmed)
    = seriesParsed rec id ++ List.replicate (b - (seriesParsed rec id).length) 0
  simp only []
  rw [if_neg (by omega : ¬ b < (seriesParsed rec id).length)]
  rw [if_pos h]

theorem seriesValues_length (rec : TsInputRec) (id : String) (b : Nat) :
    (seriesValues rec id b).length = b := by
  unfold seriesValues
  by_cases h1 : b < (seriesParsed rec id).length
  · simp only [if_pos h1, List.length_drop]
    split <;> simp_all [List.length_append, List.length_replicate, List.length_drop] <;> omega
  · simp only [if_neg h1]
    split <;> simp_all [List.length_append, List.length_replicate] <;> omega

/-- Claim C9 counterexample: with 3 buckets and a source series of one
entry [5], the output is [5, 0, 0] — the zeros are appended at the end,
not left-padded to [0, 0, 5]. -/
theorem claim_c9_counterexample :
    ((normalizeTimeSeries shortSeriesInput 0).series.map TsSeriesOut.values).head?
      = some [5, 0, 0]
    ∧ ¬([5, 0, 0] : List Nat) = [0, 0, 5] := by
  refine ⟨by decide, by decide⟩

/-- Claim C9 (amended): every output series has exactly buckets entries;
when the source series had fewer than buckets entries the missing entries
are zero-filled at the END (the array is right-padded, preserving the
existing entries at the front). -/
theorem claim_c9_series_length_padding (input : TsInput) (fb : Int) :
    ∀ s ∈ (normalizeTimeSeries input fb).series,
      s.values.length = (normalizeTimeSeries input fb).buckets.toNat
      ∧ ∀ rec, input = .obj rec →
          (seriesParsed rec s.id).length < (normalizeTimeSeries input fb).buckets.toNat →
          s.values = seriesParsed rec s.id
            ++ List.replicate ((normalizeTimeSeries input fb).buckets.toNat
                - (seriesParsed rec s.id).length) 0 := by
  intro s hs
  cases input with
  | notObject =>
    simp only [normalizeTimeSeries, makeZeroTimeSeries] at hs ⊢
    rcases List.mem_map.mp hs with ⟨d, _hd, rfl⟩
    refine ⟨by simp [List.length_replicate], ?_⟩
    intro rec hrec
    exact absurd hrec (by simp)
  | obj rec =>
    simp only [normalizeTimeSeries] at hs ⊢
    rcases List.mem_map.mp hs with ⟨d, _hd, rfl⟩
    refine ⟨seriesValues_length rec d.1 _, ?_⟩
    intro rec' hrec hlt
    cases hrec
    exact seriesValues_pad rec d.1 _ hlt

/-- Claim C9 witness: the amended length clause evaluated on the concrete
short-series input and its overall-main output series. -/
theorem claim_c9_witness :
    (⟨"overall-main", "Overall", "muted", [5, 0, 0]⟩ : TsSeriesOut).values.length
      = (normalizeTimeSeries shortSeriesInput 0).buckets.toNat :=
  (claim_c9_series_length_padding shortSeriesInput 0
    ⟨"overall-main", "Overall", "muted", [5, 0, 0]⟩ (by decide)).1

/-- Claim C7: a getSnapshot call recomputes the payload, stamps the
computation time, and clears the dirty flag exactly when no snapshot is
cached, the dirty flag is set, or more than the poll TTL elapsed since the
last computation; otherwise it returns the cached snapshot with the state
untouched. -/
theorem claim_c7_store_recompute_iff {α : Type} (compute : Int → α) (ttl : Int)
    (s : StoreState α) (now : Int) :
    (shouldRecompute ttl s now →
      getSnapshot compute ttl s now
        = (some (compute now), ⟨now, false, some (compute now)⟩))
    ∧ (¬shouldRecompute ttl s now →
      getSnapshot compute ttl s now = (s.cached, s)) := by
  have hiff : (s.cached.isNone || s.dirty || decide (now - s.lastComputedAt > ttl)) = true
      ↔ shouldRecompute ttl s now := by
    simp [shouldRecompute, Option.isNone_iff_eq_none, Bool.or_eq_true, gt_iff_lt,
      decide_eq_true_eq, or_assoc]
  constructor
  · intro h
    unfold getSnapshot
    rw [if_pos (hiff.mpr h)]
  · intro h
    unfold getSnapshot
    rw [if_neg (fun hc => h (hiff.mp hc))]

/-- Claim C7 witness: a fresh store (nothing cached, dirty set) recomputes
on its first read. -/
theorem claim_c7_witness :
    getSnapshot (fun n => n) 2000 (initialStoreState (α := Int)) 5
      = (some 5, ⟨5, false, some 5⟩) :=
  (claim_c7_store_recompute_iff (fun n => n) 2000 initialStoreState 5).1 (Or.inl rfl)

mutual

theorem mem_keys_of_hasKeyDeep {k : String} :
    ∀ (j : Json), hasKeyDeep k j = true → k ∈ jsonKeys j
  | .null => fun h => Bool.noConfusion h
  | .bool _ => fun h => Bool.noConfusion h
  | .num _ => fun h => Bool.noConfusion h
  | .str _ => fun h => Bool.noConfusion h
  | .arr xs => fun h => mem_keys_of_hasKeyArr xs h
  | .obj fs => fun h => mem_keys_of_hasKeyFields fs h

theorem mem_keys_of_hasKeyFields {k : String} :
    ∀ (fs : List (String × Json)), hasKeyFields k fs = true → k ∈ keysFields fs
  | [] => fun h => Bool.noConfusion h
  | (k', v) :: rest => fun h => by
    rw [hasKeyFields] at h
    show k ∈ k' :: (jsonKeys v ++ keysFields rest)
    simp only [Bool.or_eq_true, beq_iff_eq] at h
    rcases h with (h1 | h1) | h1
    · exact List.mem_cons.mpr (Or.inl h1.symm)
    · exact List.mem_cons_of_mem _ (List.mem_append_left _ (mem_keys_of_hasKeyDeep v h1))
    · exact List.mem_cons_of_mem _ (List.mem_append_right _ (mem_keys_of_hasKeyFields rest h1))

theorem mem_keys_of_hasKeyArr {k : String} :
    ∀ (xs : List Json), hasKeyArr k xs = true → k ∈ keysArr xs
  | [] => fun h => Bool.noConfusion h
  | x :: rest => fun h => by
    rw [hasKeyArr] at h
    show k ∈ jsonKeys x ++ keysArr rest
    simp only [Bool.or_eq_true] at h
    rcases h with h1 | h1
    · exact List.mem_append_left _ (mem_keys_of_hasKeyDeep x h1)
    · exact List.mem_append_right _ (mem_keys_of_hasKeyArr rest h1)

end

theorem jsonKeys_obj (fs : List (String × Json)) : jsonKeys (.obj fs) = keysFields fs := rfl

theorem jsonKeys_arr (xs : List Json) : jsonKeys (.arr xs) = keysArr xs := rfl

theorem jsonKeys_str (v : String) : jsonKeys (.str v) = [] := rfl

theorem jsonKeys_num (v : Int) : jsonKeys (.num v) = [] := rfl

theorem jsonKeys_bool (v : Bool) : jsonKeys (.bool v) = [] := rfl

theorem jsonKeys_null : jsonKeys .null = [] := rfl

theorem keysFields_cons (k : String) (v : Json) (rest : List (String × Json)) :
    keysFields ((k, v) :: rest) = k :: (jsonKeys v ++ keysFields rest) := rfl

theorem keysFields_nil : keysFields [] = [] := rfl

theorem keys_optStrJson (o : Option String) : jsonKeys (optStrJson o) = [] := by
  cases o <;> rfl

theorem mem_keysArr_map {α : Type} {k : String} {f : α → Json} {xs : List α}
    (h : k ∈ keysArr (xs.map f)) : ∃ x ∈ xs, k ∈ jsonKeys (f x) := by
  induction xs with
  | nil => simp [keysArr] at h
  | cons x rest ih =>
    simp only [List.map_cons, keysArr, List.mem_append] at h
    rcases h with h | h
    · exact ⟨x, List.mem_cons_self _ _, h⟩
    · rcases ih h with ⟨y, hy, hk⟩
      exact ⟨y, List.mem_cons_of_mem _ hy, hk⟩

theorem keysArr_nums (xs : List Nat) :
    keysArr (xs.map fun v => Json.num (Int.ofNat v)) = [] := by
  induction xs with
  | nil => rfl
  | cons x rest ih =>
    simp only [List.map_cons, keysArr, jsonKeys_num, ih, List.nil_append]

theorem keys_backgroundTaskJson (t : BackgroundTaskRow) :
    jsonKeys (backgroundTaskJson t)
      = ["id", "description", "agent", "lastModel", "status", "toolCalls", "lastTool",
         "timeline", "sessionId"] := by
  obtain ⟨i, d, a, st, tc, lt, lm, tl, sid⟩ := t
  cases lm <;> cases sid <;> rfl

theorem keys_planStepJson (s : PlanStep) :
    jsonKeys (planStepJson s) = ["checked", "text"] := rfl

theorem keys_tsSeriesJson (s : TsSeriesOut) :
    jsonKeys (tsSeriesJson s) = ["id", "label", "tone", "values"] := by
  simp only [tsSeriesJson, jsonKeys_obj, jsonKeys_arr, jsonKeys_str, jsonKeys_num, jsonKeys_bool, jsonKeys_null,
    keysFields_cons, keysFields_nil, keys_optStrJson, keysArr_nums, List.append_nil,
    List.nil_append]

theorem keys_tokenRowJson (r : TokenUsageRow) :
    jsonKeys (tokenRowJson r)
      = ["model", "input", "output", "reasoning", "cacheRead", "cacheWrite", "total"] := rfl

theorem keys_tokenTotalsJson (t : TokenUsageTotals) :
    jsonKeys (tokenTotalsJson t)
      = ["input", "output", "reasoning", "cacheRead", "cacheWrite", "total"] := rfl

theorem keys_mainSessionJson (main : MainView) (sid : Option String) :
    jsonKeys (mainSessionJson main sid)
      = ["agent", "currentModel", "currentTool", "lastUpdatedLabel", "session",
         "sessionId", "statusPill"] := by
  unfold mainSessionJson
  cases hm : main.currentModel <;> cases sid <;> rfl

theorem keys_timeSeriesJson (ts : TimeSeriesOut) :
    jsonKeys (timeSeriesJson ts) ⊆ rawKeyList := by
  intro k hk
  simp only [timeSeriesJson, jsonKeys_obj, jsonKeys_arr, jsonKeys_str, jsonKeys_num, jsonKeys_bool, jsonKeys_null,
    keysFields_cons, keysFields_nil, keys_optStrJson, List.mem_cons, List.mem_append,
    List.append_nil, List.nil_append, List.not_mem_nil, or_false] at hk
  rcases hk with rfl | rfl | rfl | rfl | rfl | rfl | hk
  · decide
  · decide
  · decide
  · decide
  · decide
  · decide
  · rcases mem_keysArr_map hk with ⟨ser, _, hs⟩
    rw [keys_tsSeriesJson] at hs
    exact (show (["id", "label", "tone", "values"] : List String) ⊆ rawKeyList by decide) hs

theorem keys_planProgressJson (planName planPath : String) (plan : PlanProgressView)
    (stepsMissing : Bool) (steps : List PlanStep) :
    jsonKeys (planProgressJson planName planPath plan stepsMissing steps) ⊆ rawKeyList := by
  intro k hk
  simp only [planProgressJson, jsonKeys_obj, jsonKeys_arr, jsonKeys_str, jsonKeys_num, jsonKeys_bool, jsonKeys_null,
    keysFields_cons, keysFields_nil, keys_optStrJson, List.mem_cons, List.mem_append,
    List.append_nil, List.nil_append, List.not_mem_nil, or_false] at hk
  rcases hk with rfl | rfl | rfl | rfl | rfl | rfl | hk
  · decide
  · decide
  · decide
  · decide
  · decide
  · decide
  · cases stepsMissing with
    | true => simp [keysArr] at hk
    | false =>
      rcases mem_keysArr_map hk with ⟨st, _, hs⟩
      rw [keys_planStepJson] at hs
      exact (show (["checked", "text"] : List String) ⊆ rawKeyList by decide) hs

theorem keys_mainSessionTasksJson (sid : Option String) (main : MainView)
    (sc : Option Int) (tcs : List ToolCallV) (now : Int) :
    keysArr (mainSessionTasksJson sid main sc tcs now) ⊆ rawKeyList := by
  cases sid with
  | none => simp [mainSessionTasksJson, keysArr]
  | some s =>
    have hkeys : keysArr (mainSessionTasksJson (some s) main sc tcs now)
        = ["id", "description", "subline", "agent", "lastModel", "status", "toolCalls",
           "lastTool", "timeline", "sessionId"] := by
      obtain ⟨ag, ct, cm, lu, sl, stt⟩ := main
      cases cm <;> rfl
    rw [hkeys]
    decide

theorem keys_tokenUsageJson (p : TokenUsagePayload) :
    jsonKeys (tokenUsageJson p) ⊆ payloadKeyList := by
  intro k hk
  simp only [tokenUsageJson, jsonKeys_obj, jsonKeys_arr, jsonKeys_str, jsonKeys_num, jsonKeys_bool, jsonKeys_null,
    keysFields_cons, keysFields_nil, keys_optStrJson, List.mem_cons, List.mem_append,
    List.append_nil, List.nil_append, List.not_mem_nil, or_false] at hk
  rcases hk with rfl | hk | rfl | hk
  · decide
  · rcases mem_keysArr_map hk with ⟨r, _, hr⟩
    rw [keys_tokenRowJson] at hr
    exact (show (["model", "input", "output", "reasoning", "cacheRead", "cacheWrite",
      "total"] : List String) ⊆ payloadKeyList by decide) hr
  · decide
  · rw [keys_tokenTotalsJson] at hk
    exact (show (["input", "output", "reasoning", "cacheRead", "cacheWrite",
      "total"] : List String) ⊆ payloadKeyList by decide) hk

theorem keys_buildRawJson (storage : Storage) (nowMs : Int) (sessionId : Option String)
    (boulder : Option BoulderView) (planFromReader : PlanProgressView)
    (stepsMissingFromReader : Bool) (planStepsFromReader : List PlanStep)
    (mainFromView : MainView) (sessionCreated : Option Int)
    (mainToolCalls : List ToolCallV) (timeSeries : TimeSeriesOut) :
    jsonKeys (buildRawJson storage nowMs sessionId boulder planFromReader
      stepsMissingFromReader planStepsFromReader mainFromView sessionCreated
      mainToolCalls timeSeries) ⊆ rawKeyList := by
  intro k hk
  simp only [buildRawJson, jsonKeys_obj, jsonKeys_arr, jsonKeys_str, jsonKeys_num, jsonKeys_bool, jsonKeys_null,
    keysFields_cons, keysFields_nil, keys_optStrJson, List.mem_cons, List.mem_append,
    List.append_nil, List.nil_append, List.not_mem_nil, or_false] at hk
  rcases hk with rfl | hk | rfl | hk | rfl | hk | rfl | hk | rfl | hk
  · decide
  · rw [keys_mainSessionJson] at hk
    exact (show (["agent", "currentModel", "currentTool", "lastUpdatedLabel", "session",
      "sessionId", "statusPill"] : List String) ⊆ rawKeyList by decide) hk
  · decide
  · exact keys_planProgressJson _ _ _ _ _ hk
  · decide
  · rcases mem_keysArr_map hk with ⟨t, _, ht⟩
    rw [keys_backgroundTaskJson] at ht
    exact (show (["id", "description", "agent", "lastModel", "status", "toolCalls",
      "lastTool", "timeline", "sessionId"] : List String) ⊆ rawKeyList by decide) ht
  · decide
  · exact keys_mainSessionTasksJson _ _ _ _ _ hk
  · decide
  · exact keys_timeSeriesJson _ hk

theorem rawKeyList_subset_payloadKeyList : rawKeyList ⊆ payloadKeyList := by
  intro x hx
  unfold payloadKeyList
  exact List.mem_append_left _ hx

theorem keys_buildDashboardPayloadJson (storage : Storage) (nowMs : Int)
    (sessionId : Option String) (boulder : Option BoulderView)
    (planFromReader : PlanProgressView) (stepsMissingFromReader : Bool)
    (planStepsFromReader : List PlanStep) (mainFromView : MainView)
    (sessionCreated : Option Int) (mainToolCalls : List ToolCallV)
    (timeSeries : TimeSeriesOut) :
    jsonKeys (buildDashboardPayloadJson storage nowMs sessionId boulder planFromReader
      stepsMissingFromReader planStepsFromReader mainFromView sessionCreated
      mainToolCalls timeSeries) ⊆ payloadKeyList := by
  intro k hk
  simp only [buildDashboardPayloadJson, jsonKeys_obj, jsonKeys_arr, jsonKeys_str, jsonKeys_num, jsonKeys_bool, jsonKeys_null,
    keysFields_cons, keysFields_nil, keys_optStrJson, List.mem_cons,
    List.mem_append, List.append_nil, List.nil_append, List.not_mem_nil, or_false] at hk
  rcases hk with rfl | hk | rfl | hk | rfl | hk | rfl | hk | rfl | hk | rfl | hk | rfl | hk
  · decide
  · refine rawKeyList_subset_payloadKeyList ?_
    rw [keys_mainSessionJson] at hk
    exact (show (["agent", "currentModel", "currentTool", "lastUpdatedLabel", "session",
      "sessionId", "statusPill"] : List String) ⊆ rawKeyList by decide) hk
  · decide
  · exact rawKeyList_subset_payloadKeyList (keys_planProgressJson _ _ _ _ _ hk)
  · decide
  · refine rawKeyList_subset_payloadKeyList ?_
    rcases mem_keysArr_map hk with ⟨t, _, ht⟩
    rw [keys_backgroundTaskJson] at ht
    exact (show (["id", "description", "agent", "lastModel", "status", "toolCalls",
      "lastTool", "timeline", "sessionId"] : List String) ⊆ rawKeyList by decide) ht
  · decide
  · exact rawKeyList_subset_payloadKeyList (keys_mainSessionTasksJson _ _ _ _ _ hk)
  · decide
  · exact rawKeyList_subset_payloadKeyList (keys_timeSeriesJson _ hk)
  · decide
  · exact keys_tokenUsageJson _ hk
  · decide
  · exact rawKeyList_subset_payloadKeyList (keys_buildRawJson _ _ _ _ _ _ _ _ _ _ _ hk)

/-- Claim C1 counterexample: already on the empty artifact tree the payload
returned by buildDashboardPayload contains keys named input and output at
depth (the numeric counter fields of the always-present tokenUsage
aggregate), while the nested raw field carries neither. -/
theorem claim_c1_counterexample :
    hasKeyDeep "input" (buildDashboardPayloadJson emptyStorage 0 none none
      ⟨0, 0, false, true⟩ true [] defaultMainView none [] sampleTimeSeries) = true
    ∧ hasKeyDeep "output" (buildDashboardPayloadJson emptyStorage 0 none none
      ⟨0, 0, false, true⟩ true [] defaultMainView none [] sampleTimeSeries) = true
    ∧ hasKeyDeep "input" (buildRawJson emptyStorage 0 none none
      ⟨0, 0, false, true⟩ true [] defaultMainView none [] sampleTimeSeries) = false := by
  refine ⟨by decide, by decide, by decide⟩

/-- Claim C1 (amended): for every artifact tree, clock, and collaborator
result, the payload of buildDashboardPayload contains no key named prompt,
error, or state at any depth; keys named input and output occur only as
the numeric counter fields of the token-usage aggregate; and the nested
raw field contains none of the five sensitive keys at any depth. -/
theorem claim_c1_no_sensitive_keys (storage : Storage) (nowMs : Int)
    (sessionId : Option String) (boulder : Option BoulderView)
    (planFromReader : PlanProgressView) (stepsMissingFromReader : Bool)
    (planStepsFromReader : List PlanStep) (mainFromView : MainView)
    (sessionCreated : Option Int) (mainToolCalls : List ToolCallV)
    (timeSeries : TimeSeriesOut) :
    (hasKeyDeep "prompt" (buildDashboardPayloadJson storage nowMs sessionId boulder
        planFromReader stepsMissingFromReader planStepsFromReader mainFromView
        sessionCreated mainToolCalls timeSeries) = false
      ∧ hasKeyDeep "error" (buildDashboardPayloadJson storage nowMs sessionId boulder
        planFromReader stepsMissingFromReader planStepsFromReader mainFromView
        sessionCreated mainToolCalls timeSeries) = false
      ∧ hasKeyDeep "state" (buildDashboardPayloadJson storage nowMs sessionId boulder
        planFromReader stepsMissingFromReader planStepsFromReader mainFromView
        sessionCreated mainToolCalls timeSeries) = false)
    ∧ (∀ kk ∈ (["prompt", "input", "output", "error", "state"] : List String),
        hasKeyDeep kk (buildRawJson storage nowMs sessionId boulder planFromReader
          stepsMissingFromReader planStepsFromReader mainFromView sessionCreated
          mainToolCalls timeSeries) = false) := by
  have hgenP : ∀ kk : String, kk ∉ payloadKeyList →
      hasKeyDeep kk (buildDashboardPayloadJson storage nowMs sessionId boulder
        planFromReader stepsMissingFromReader planStepsFromReader mainFromView
        sessionCreated mainToolCalls timeSeries) = false := by
    intro kk hnot
    cases h : hasKeyDeep kk (buildDashboardPayloadJson storage nowMs sessionId boulder
        planFromReader stepsMissingFromReader planStepsFromReader mainFromView
        sessionCreated mainToolCalls timeSeries)
    · rfl
    · exact absurd (keys_buildDashboardPayloadJson storage nowMs sessionId boulder
        planFromReader stepsMissingFromReader planStepsFromReader mainFromView
        sessionCreated mainToolCalls timeSeries (mem_keys_of_hasKeyDeep _ h)) hnot
  have hgenR : ∀ kk : String, kk ∉ rawKeyList →
      hasKeyDeep kk (buildRawJson storage nowMs sessionId boulder planFromReader
        stepsMissingFromReader planStepsFromReader mainFromView sessionCreated
        mainToolCalls timeSeries) = false := by
    intro kk hnot
    cases h : hasKeyDeep kk (buildRawJson storage nowMs sessionId boulder planFromReader
        stepsMissingFromReader planStepsFromReader mainFromView sessionCreated
        mainToolCalls timeSeries)
    · rfl
    · exact absurd (keys_buildRawJson storage nowMs sessionId boulder planFromReader
        stepsMissingFromReader planStepsFromReader mainFromView sessionCreated
        mainToolCalls timeSeries (mem_keys_of_hasKeyDeep _ h)) hnot
  refine ⟨⟨hgenP "prompt" (by decide), hgenP "error" (by decide),
    hgenP "state" (by decide)⟩, ?_⟩
  intro kk hkk
  simp only [List.mem_cons, List.not_mem_nil, or_false] at hkk
  rcases hkk with rfl | rfl | rfl | rfl | rfl <;> exact hgenR _ (by decide)

/-- Claim C1 witness: the raw clause of the amended theorem evaluated at
the empty artifact tree for the key state. -/
theorem claim_c1_witness :
    hasKeyDeep "state" (buildRawJson emptyStorage 0 none none ⟨0, 0, false, true⟩ true []
      defaultMainView none [] sampleTimeSeries) = false :=
  (claim_c1_no_sensitive_keys emptyStorage 0 none none ⟨0, 0, false, true⟩ true []
    defaultMainView none [] sampleTimeSeries).2 "state" (by decide)

/-- Claim C6 witness: the amended characterization evaluated on the
zero-timestamp tree's row. -/
theorem claim_c6_witness :
    (zeroLuRow.status = .queued ↔ zeroLuRow.sessionId = none)
    ∧ (zeroLuRow.status = .running ↔ ∃ s, zeroLuRow.sessionId = some s
        ∧ runningCond (statsFor zeroLuStorage s) 1000)
    ∧ (zeroLuRow.status = .completed ↔ ∃ s, zeroLuRow.sessionId = some s
        ∧ ¬runningCond (statsFor zeroLuStorage s) 1000
        ∧ 0 < (statsFor zeroLuStorage s).toolCalls)
    ∧ (zeroLuRow.status = .unknown ↔ ∃ s, zeroLuRow.sessionId = some s
        ∧ ¬runningCond (statsFor zeroLuStorage s) 1000
        ∧ (statsFor zeroLuStorage s).toolCalls = 0)
    ∧ (zeroLuRow.timeline = "" ↔ zeroLuRow.status = .unknown) :=
  claim_c6_status_characterization zeroLuStorage "ses_main" 1000 zeroLuRow (by decide)

end OmoDash
